import Mathlib

/-!
# Verification of the Intent and Dialogue Engine

This file gives a shallow embedding, in Lean 4, of the conversational
task-management engine of the repository, and proves properties of it.

The embedded code is:

* MockProvider.is_urdu, MockProvider.normalize_urdu,
  MockProvider._get_context_from_history and MockProvider.process_message
  from src/phase_iii/agent/providers/mock_provider.py (the intent
  classifier, context resolver, confirmation state machine and action
  dispatcher of the engine);
* TodoAgent.process_tool_results from src/phase_iii/agent/agent.py
  (the result summarizer).

The Python code drives its classification with re.search over a fixed,
ordered list of regular expressions.  To embed it faithfully we implement
a small backtracking regular-expression engine (type RE below) with the
same semantics as the CPython re module on the constructs those patterns
use: alternation with left preference, greedy and non-greedy repetition,
optional groups, capturing groups, negative lookahead, word boundaries,
the dollar anchor, and leftmost search.  Each Python pattern is then
transcribed node by node into an RE value.

Numbers are Nat / Int (Python integers of the ids never overflow), and
strings are Lean String / List Char.  Python str.lower is embedded as the
ASCII case fold (the only cased characters reaching it in this code are
ASCII; Urdu script has no case).  Python truthiness of optional integers
(where 0 and None are both false) is embedded explicitly as truthy below.
-/

namespace TodoSpec

/-- The apostrophe character, written by code point. -/
def sq : String := String.mk [Char.ofNat 39]

/-- The double quote character. -/
def dq : String := String.mk [Char.ofNat 34]

/-- Embedding of the Python lower() case fold on one character (ASCII
letters; all other characters reaching lower() in this code are unchanged
by the Python function as well). -/
def pyLowerC (c : Char) : Char :=
  if 65 ≤ c.toNat ∧ c.toNat ≤ 90 then Char.ofNat (c.toNat + 32) else c

/-- Embedding of the Python upper() case fold on one character. -/
def pyUpperC (c : Char) : Char :=
  if 97 ≤ c.toNat ∧ c.toNat ≤ 122 then Char.ofNat (c.toNat - 32) else c

/-- Python str.lower on a character list. -/
def pyLowerL (l : List Char) : List Char := l.map pyLowerC

/-- Whitespace as recognized by Python str.strip and the regex class for
spaces (the ASCII part; no other whitespace occurs in the embedded data). -/
def pyIsSpace (c : Char) : Bool :=
  c = ' ' || c = Char.ofNat 9 || c = Char.ofNat 10 || c = Char.ofNat 13 ||
  c = Char.ofNat 11 || c = Char.ofNat 12

/-- Digits as recognized by the Python regex class for digits on text
patterns: ASCII digits and the Arabic-Indic digit blocks. -/
def pyIsDigit (c : Char) : Bool :=
  (48 ≤ c.toNat && c.toNat ≤ 57) ||
  (0x660 ≤ c.toNat && c.toNat ≤ 0x669) ||
  (0x6F0 ≤ c.toNat && c.toNat ≤ 0x6F9)

/-- Numeric value of a digit character accepted by pyIsDigit. -/
def digitVal (c : Char) : Nat :=
  if 48 ≤ c.toNat ∧ c.toNat ≤ 57 then c.toNat - 48
  else if 0x660 ≤ c.toNat ∧ c.toNat ≤ 0x669 then c.toNat - 0x660
  else c.toNat - 0x6F0

/-- Embedding of the Python int() conversion of a digit string. -/
def parseNat (l : List Char) : Nat :=
  l.foldl (fun a c => 10 * a + digitVal c) 0

/-- Characters of the Arabic / Urdu Unicode block, exactly the test of
MockProvider.is_urdu: 0x0600 to 0x06FF inclusive. -/
def isUrduChar (c : Char) : Bool :=
  0x600 ≤ c.toNat && c.toNat ≤ 0x6FF

/-- Arabic-block punctuation, format and combining characters, which are
not word characters for the Python regex word-boundary test. -/
def isUrduNonWord (c : Char) : Bool :=
  c.toNat ≤ 0x605 || c.toNat = 0x60C || c.toNat = 0x61B || c.toNat = 0x61C ||
  c.toNat = 0x61E || c.toNat = 0x61F ||
  (0x610 ≤ c.toNat && c.toNat ≤ 0x61A) ||
  (0x64B ≤ c.toNat && c.toNat ≤ 0x65F) ||
  (0x66A ≤ c.toNat && c.toNat ≤ 0x66D) || c.toNat = 0x670 ||
  c.toNat = 0x6D4 || (0x6D6 ≤ c.toNat && c.toNat ≤ 0x6DD) ||
  (0x6DF ≤ c.toNat && c.toNat ≤ 0x6E4) || c.toNat = 0x6E7 ||
  c.toNat = 0x6E8 || (0x6EA ≤ c.toNat && c.toNat ≤ 0x6ED)

/-- Word characters for the Python regex word-boundary test, restricted to
the scripts occurring in this program (ASCII and the Arabic block). -/
def pyIsWordChar (c : Char) : Bool :=
  c.isAlpha || pyIsDigit c || c = '_' ||
  (isUrduChar c && !isUrduNonWord c)

/-- Python str.strip: drop whitespace from both ends. -/
def pyStrip (l : List Char) : List Char :=
  ((l.dropWhile pyIsSpace).reverse.dropWhile pyIsSpace).reverse

/-- Python str.capitalize: first character upper-cased, rest lower-cased. -/
def pyCapitalize : List Char → List Char
  | [] => []
  | c :: cs => pyUpperC c :: cs.map pyLowerC

/-- Python truthiness of an optional integer: None and 0 are false. -/
def truthy : Option Nat → Bool
  | none => false
  | some n => n ≠ 0

/-- Python truthiness of an optional string: None and the empty string are
false. -/
def strTruthy : Option (List Char) → Bool
  | none => false
  | some l => l ≠ []

/-- Decimal digits of a natural number, most significant first (fuelled
recursion; the fuel n + 1 always suffices since n / 10 < n for n ≥ 10). -/
def natDigitsAux : Nat → Nat → List Char
  | 0, _ => []
  | fuel + 1, n =>
    if n < 10 then [Char.ofNat (48 + n)]
    else natDigitsAux fuel (n / 10) ++ [Char.ofNat (48 + n % 10)]

/-- Decimal representation of a natural number, the embedding of the
Python f-string conversion of a nonnegative int. -/
def natRepr (n : Nat) : String := String.mk (natDigitsAux (n + 1) n)

/-- Decimal representation of an integer. -/
def intRepr : Int → String
  | Int.ofNat n => natRepr n
  | Int.negSucc n => "-" ++ natRepr (n + 1)

/-- Does the needle occur as a prefix of the haystack. -/
def isPrefixOfL : List Char → List Char → Bool
  | [], _ => true
  | _ :: _, [] => false
  | a :: as, b :: bs => a = b && isPrefixOfL as bs

/-- Does the needle occur as a contiguous substring of the haystack. -/
def containsSub (hay needle : List Char) : Bool :=
  match hay with
  | [] => isPrefixOfL needle []
  | _ :: rest => isPrefixOfL needle hay || containsSub rest needle

/-- Substring test on strings: Python operator in. -/
def strContains (hay needle : String) : Bool :=
  containsSub hay.data needle.data

/-! ## A backtracking regular-expression engine

The engine reproduces the behaviour of CPython re.search on the pattern
constructs used by the embedded code.  A pattern is an RE syntax tree; the
matcher is written in continuation-passing style so that failure of the
continuation backtracks into the pattern exactly as the CPython
backtracking matcher does: alternation prefers its left branch, greedy
repetition prefers longer matches, non-greedy repetition prefers shorter
matches, and search tries start positions from the left. -/

/-- Regular expression syntax.  cls carries the character predicate of a
character class; any is the dot (any character except newline); nla is a
negative lookahead; wb is a word boundary; bos and eos are the caret and
dollar anchors. -/
inductive RE where
  | eps : RE
  | cls : (Char → Bool) → RE
  | cat : RE → RE → RE
  | alt : RE → RE → RE
  | star : RE → RE
  | starNG : RE → RE
  | opt : RE → RE
  | group : Nat → RE → RE
  | nla : RE → RE
  | wb : RE
  | bos : RE
  | eos : RE

/-- A literal character. -/
def RE.lit (c : Char) : RE := RE.cls (fun x => x = c)

/-- The dot: any character except newline. -/
def RE.any : RE := RE.cls (fun x => x ≠ Char.ofNat 10)

/-- One or more repetitions, greedy. -/
def RE.plus (a : RE) : RE := RE.cat a (RE.star a)

/-- A literal string. -/
def rstr (s : String) : RE :=
  (s.data.map RE.lit).foldr RE.cat RE.eps

/-- Alternation of a nonempty list, left preference. -/
def ralts : List RE → RE
  | [] => RE.eps
  | [a] => a
  | a :: rest => RE.alt a (ralts rest)

/-- Captured group spans: group index, start, stop. -/
abbrev Caps := List (Nat × Nat × Nat)

/-- Word-boundary test at a position of the subject. -/
def atWordBoundary (s : List Char) (pos : Nat) : Bool :=
  (match pos with
   | 0 => false
   | p + 1 => match s[p]? with
     | some c => pyIsWordChar c
     | none => false)
  !=
  (match s[pos]? with
   | some c => pyIsWordChar c
   | none => false)

/-- Dollar-anchor test: end of subject, or just before a final newline. -/
def atEos (s : List Char) (pos : Nat) : Bool :=
  pos = s.length ||
  (pos + 1 = s.length && s[pos]? = some (Char.ofNat 10))

/-- The backtracking matcher.  k is the continuation; returning none from
the continuation makes the matcher try the next alternative, longer or
shorter repetition, or optional-part choice, in the same order as the
CPython matcher.  Repetition refuses iterations that consume nothing, as
CPython does.  The fuel only bounds recursion depth; reFuel below always
suffices for a complete search. -/
def reM (fuel : Nat) (re : RE) (s : List Char) (pos : Nat) (caps : Caps)
    (k : Nat → Caps → Option (Nat × Caps)) : Option (Nat × Caps) :=
  match fuel with
  | 0 => none
  | fuel + 1 =>
    match re with
    | .eps => k pos caps
    | .cls p =>
      match s[pos]? with
      | some c => if p c then k (pos + 1) caps else none
      | none => none
    | .cat a b => reM fuel a s pos caps (fun p c => reM fuel b s p c k)
    | .alt a b =>
      match reM fuel a s pos caps k with
      | some r => some r
      | none => reM fuel b s pos caps k
    | .star a =>
      match reM fuel a s pos caps
          (fun p c => if p = pos then none else reM fuel (.star a) s p c k) with
      | some r => some r
      | none => k pos caps
    | .starNG a =>
      match k pos caps with
      | some r => some r
      | none =>
        reM fuel a s pos caps
          (fun p c => if p = pos then none else reM fuel (.starNG a) s p c k)
    | .opt a =>
      match reM fuel a s pos caps k with
      | some r => some r
      | none => k pos caps
    | .group i a => reM fuel a s pos caps (fun p c => k p ((i, pos, p) :: c))
    | .nla a =>
      match reM fuel a s pos caps (fun p c => some (p, c)) with
      | some _ => none
      | none => k pos caps
    | .wb => if atWordBoundary s pos then k pos caps else none
    | .bos => if pos = 0 then k pos caps else none
    | .eos => if atEos s pos then k pos caps else none

/-- Size of a pattern, used to compute sufficient fuel. -/
def reSize : RE → Nat
  | .eps => 1
  | .cls _ => 1
  | .cat a b => reSize a + reSize b + 1
  | .alt a b => reSize a + reSize b + 1
  | .star a => reSize a + 1
  | .starNG a => reSize a + 1
  | .opt a => reSize a + 1
  | .group _ a => reSize a + 1
  | .nla a => reSize a + 1
  | .wb => 1
  | .bos => 1
  | .eos => 1

/-- Fuel sufficient for a complete backtracking run: every repetition
iteration consumes at least one character, so the recursion depth is
bounded by the pattern size times the subject length. -/
def reFuel (re : RE) (s : List Char) : Nat :=
  (reSize re + 2) * (s.length + 2) + reSize re + 2

/-- The result of a successful search: the subject, the span of the match
and the captured group spans. -/
structure RMatch where
  str : List Char
  start : Nat
  stop : Nat
  caps : Caps
deriving Repr, DecidableEq

/-- Text of a captured group: none when the group did not take part in the
match, as with the Python group method. -/
def RMatch.group (m : RMatch) (i : Nat) : Option (List Char) :=
  if i = 0 then some ((m.str.drop m.start).take (m.stop - m.start))
  else
    match m.caps.find? (fun t => t.1 = i) with
    | some (_, a, b) => some ((m.str.drop a).take (b - a))
    | none => none

/-- Search positions left to right, the first position with a match wins:
the embedding of re.search. -/
def reSearchAux (re : RE) (s : List Char) : Nat → Nat → Option (Nat × Nat × Caps)
  | 0, _ => none
  | tries + 1, pos =>
    match reM (reFuel re s) re s pos [] (fun p c => some (p, c)) with
    | some (p, c) => some (pos, p, c)
    | none => reSearchAux re s tries (pos + 1)

/-- Embedding of re.search: the leftmost match, or none. -/
def reSearch (re : RE) (s : List Char) : Option RMatch :=
  match reSearchAux re s (s.length + 1) 0 with
  | some (st, en, caps) => some ⟨s, st, en, caps⟩
  | none => none

/-! ## The patterns of MockProvider, transcribed node by node

Each definition below transcribes one regular-expression literal of
src/phase_iii/agent/providers/mock_provider.py.  The English rules run
with re.IGNORECASE over the already lower-cased message, so the flag has
no effect and the transcription matches the lower-case literals. -/

/-- The regex class for whitespace. -/
def spaceC : RE := RE.cls pyIsSpace

/-- The regex class for digits. -/
def digitC : RE := RE.cls pyIsDigit

/-- The single-quote-or-double-quote character class of the update rules. -/
def quoteC : RE := RE.cls (fun c => c = Char.ofNat 39 || c = Char.ofNat 34)

/-- Confirmation-question pattern of the context resolver (line 58). -/
def confPat : RE :=
  RE.cat (ralts [rstr "sure", rstr "confirm"])
    (RE.cat (RE.star RE.any)
      (RE.cat (rstr "delete")
        (RE.cat (RE.star RE.any)
          (RE.cat (rstr "task")
            (RE.cat (RE.plus spaceC) (RE.group 1 (RE.plus digitC)))))))

/-- Task-id reference pattern of the context resolver (line 67). -/
def idPat : RE :=
  RE.cat (ralts [rstr "task", rstr "id", rstr "item"])
    (RE.cat (RE.opt (RE.cat (RE.star spaceC)
        (RE.cls (fun c => c = ':' || c = '#'))))
      (RE.cat (RE.plus spaceC) (RE.group 1 (RE.plus digitC))))

/-- Affirmative pattern of the confirmation flow (line 110). -/
def yesPat : RE :=
  RE.alt
    (RE.cat RE.wb (RE.cat
      (ralts [rstr "yes", rstr "sure", rstr "confirm", rstr "ok",
              rstr "yeah", rstr "do it", rstr "y"]) RE.wb))
    (ralts [RE.cat RE.wb (RE.cat (rstr "جی") RE.wb),
            RE.cat RE.wb (RE.cat (rstr "ہاں") RE.wb),
            RE.cat RE.wb (RE.cat (rstr "بلکل") RE.wb)])

/-- Negative pattern of the confirmation flow (line 111). -/
def noPat : RE :=
  RE.alt
    (RE.cat RE.wb (RE.cat
      (ralts [rstr "no", rstr "cancel", rstr "stop",
              rstr ("don" ++ sq ++ "t"), rstr "wait"]) RE.wb))
    (ralts [RE.cat RE.wb (RE.cat (rstr "نہیں") RE.wb),
            RE.cat RE.wb (RE.cat (rstr "مت") RE.wb),
            RE.cat RE.wb (RE.cat (rstr "رک") RE.wb)])

/-- English list pattern (line 163). -/
def listPatEn : RE :=
  RE.cat (RE.group 1 (ralts [rstr "show", rstr "list", rstr "get",
      rstr "fetch", rstr "what are", rstr "display"]))
    (RE.cat (RE.star RE.any)
      (RE.group 2 (ralts [rstr "task", rstr "todo", rstr "list",
        rstr "items"])))

/-- English add pattern (line 166). -/
def addPatEn : RE :=
  RE.cat (ralts [rstr "add", rstr "create", rstr "new task",
      rstr "remember to", rstr "remind me to"])
    (RE.cat (RE.plus spaceC)
      (RE.cat (RE.opt (ralts [rstr "a task to", rstr "a task", rstr "to",
          rstr "task", rstr "that"]))
        (RE.cat (RE.star spaceC) (RE.group 1 (RE.plus RE.any)))))

/-- English implicit-add pattern (line 171), with the negative lookahead
that rejects a digit (or the words id and number) right after task. -/
def addImplicitPatEn : RE :=
  RE.cat (RE.alt RE.bos spaceC)
    (RE.cat (RE.opt (RE.cat (RE.lit 'a') (RE.plus spaceC)))
      (RE.cat (rstr "task")
        (RE.cat (RE.plus spaceC)
          (RE.cat (RE.nla (ralts [RE.cat (rstr "id") RE.wb,
              RE.cat (rstr "number") RE.wb, digitC]))
            (RE.cat (RE.opt (ralts
                [RE.cat (rstr "to") (RE.plus spaceC),
                 RE.cat (rstr "about") (RE.plus spaceC),
                 RE.cat (rstr "by") (RE.plus spaceC),
                 RE.cat (rstr "for") (RE.plus spaceC)]))
              (RE.group 1 (RE.plus RE.any)))))))

/-- English context-complete pattern (line 176). -/
def completeContextPatEn : RE :=
  RE.cat (ralts [rstr "complete", rstr "finish", rstr "mark",
      rstr "check off"])
    (RE.cat (RE.plus spaceC)
      (RE.cat (ralts [rstr "it", rstr "that", rstr "this", rstr "the task"])
        RE.eos))

/-- English context-delete pattern (line 180). -/
def deleteContextPatEn : RE :=
  RE.cat (ralts [rstr "delete", rstr "remove", rstr "erase"])
    (RE.cat (RE.plus spaceC)
      (RE.cat (ralts [rstr "it", rstr "that", rstr "this", rstr "the task"])
        RE.eos))

/-- English explicit-complete pattern (line 184). -/
def completePatEn : RE :=
  RE.cat (ralts [rstr "complete", rstr "mark", rstr "finish"])
    (RE.cat (RE.plus spaceC)
      (RE.cat (RE.opt (ralts [rstr "task", rstr "id"]))
        (RE.cat (RE.star spaceC) (RE.group 1 (RE.plus digitC)))))

/-- English delete-request pattern (line 188). -/
def deleteRequestPatEn : RE :=
  RE.cat (ralts [rstr "delete", rstr "remove"])
    (RE.cat (RE.plus spaceC)
      (RE.cat (RE.opt (ralts [rstr "task", rstr "id"]))
        (RE.cat (RE.star spaceC) (RE.group 1 (RE.plus digitC)))))

/-- English update pattern (line 191). -/
def updatePatEn : RE :=
  RE.cat (ralts [rstr "update", rstr "change", rstr "rename"])
    (RE.cat (RE.plus spaceC)
      (RE.cat (RE.opt (ralts [rstr "task", rstr "id"]))
        (RE.cat (RE.star spaceC)
          (RE.cat (RE.group 1 (RE.plus digitC))
            (RE.cat (RE.plus spaceC)
              (RE.cat (ralts [rstr "to", rstr "with"])
                (RE.cat (RE.plus spaceC)
                  (RE.cat (RE.opt quoteC)
                    (RE.cat (RE.group 2 (RE.starNG RE.any))
                      (RE.cat (RE.opt quoteC) RE.eos))))))))))

/-- The optional task noun of the Urdu id-based patterns. -/
def urduNoun : RE := ralts [rstr "ٹاسک", rstr "کام", rstr "نمبر"]

/-- Digits or an Urdu ordinal word, the id alternative of the Urdu
id-based patterns. -/
def urduIdAlt : RE :=
  ralts [RE.plus digitC, rstr "پہلا", rstr "دوسرا", rstr "تیسرا",
         rstr "چوتھا", rstr "پانچواں"]

/-- Urdu list pattern (line 139). -/
def listPatUr : RE :=
  RE.group 1 (ralts [rstr "فہرست", rstr "لسٹ", rstr "دکھا", rstr "دیکھ",
    rstr "بتا", rstr "کیا ہے", rstr "کیا ہیں", rstr "میرے کام",
    rstr "ٹاسک", rstr "لسٹ"])

/-- Urdu add pattern (line 141). -/
def addPatUr : RE :=
  RE.cat (RE.alt RE.bos spaceC)
    (RE.cat (RE.group 1 (RE.plus RE.any))
      (RE.cat (RE.plus spaceC)
        (RE.cat (ralts [rstr "شامل کریں", rstr "شامل کرو", rstr "لکھیں",
            rstr "ایڈ کریں", rstr "ڈالیں", rstr "ڈالو", rstr "اضافہ کریں",
            rstr "اضافہ کرو", rstr "کریں", rstr "بنائیں"])
          (RE.opt (RE.cat (RE.plus spaceC)
            (RE.group 2 (RE.plus RE.any)))))))

/-- Urdu complete pattern (line 148). -/
def completePatUr : RE :=
  RE.cat (RE.opt (RE.group 1 urduNoun))
    (RE.cat (RE.star spaceC)
      (RE.cat (RE.group 2 urduIdAlt)
        (RE.cat (RE.star spaceC)
          (RE.cat (RE.opt (RE.group 3 urduNoun))
            (RE.cat (RE.star spaceC)
              (RE.group 4 (ralts [rstr "مکمل", rstr "ختم", rstr "ہو گیا",
                rstr "ڈن", rstr "کریں", rstr "کردیں", rstr "کرو"])))))))

/-- Urdu delete-request pattern (line 152). -/
def deleteRequestPatUr : RE :=
  RE.cat (RE.opt (RE.group 1 urduNoun))
    (RE.cat (RE.star spaceC)
      (RE.cat (RE.group 2 urduIdAlt)
        (RE.cat (RE.star spaceC)
          (RE.cat (RE.opt (RE.group 3 urduNoun))
            (RE.cat (RE.star spaceC)
              (RE.group 4 (ralts [rstr "حذف", rstr "نکال", rstr "مٹائیں",
                rstr "ختم کریں", rstr "کرو", rstr "کریں", rstr "ڈیلیٹ"])))))))

/-- Urdu update pattern (line 156). -/
def updatePatUr : RE :=
  RE.cat (RE.opt (RE.group 1 urduNoun))
    (RE.cat (RE.star spaceC)
      (RE.cat (RE.group 2 urduIdAlt)
        (RE.cat (RE.star spaceC)
          (RE.cat (RE.opt (RE.group 3 urduNoun))
            (RE.cat (RE.star spaceC)
              (RE.cat (RE.group 4 (ralts [rstr "کا نام بدل کر",
                  rstr "کو بدل کر", rstr "کو", rstr "بدلو",
                  rstr "اپڈیٹ کرو", rstr "اپڈیٹ"]))
                (RE.cat (RE.star spaceC)
                  (RE.cat (RE.opt quoteC)
                    (RE.cat (RE.group 5 (RE.starNG RE.any))
                      (RE.cat (RE.opt quoteC)
                        (RE.cat (RE.star spaceC)
                          (RE.group 6 (ralts [rstr "کر دیں",
                            rstr "تبدیل کریں", rstr "بنا دیں",
                            rstr "کرو", rstr "کریں"])))))))))))))

/-! ## Data model -/

/-- One turn of the conversation history, the shape of the dictionaries
handed to process_message. -/
structure Msg where
  role : String
  content : String
deriving DecidableEq, Repr

/-- The context dictionary built by _get_context_from_history. -/
structure Ctx where
  last_id : Option Nat
  pending_action : Option String
  pending_id : Option Nat
deriving DecidableEq, Repr

/-- The input dictionary of a tool call; the fields other than user_id
are present only for some calls, hence optional. -/
structure ToolInput where
  user_id : Int
  todo_id : Option Nat
  title : Option String
  completed : Option Bool
deriving DecidableEq, Repr

/-- A tool call produced by the provider. -/
structure ToolCall where
  name : String
  input : ToolInput
  tool_use_id : String
deriving DecidableEq, Repr

/-- The dictionary returned by process_message. -/
structure AgentResponse where
  response_text : String
  tool_calls : List ToolCall
  requires_tool_execution : Bool
  stop_reason : String
  language : String
deriving DecidableEq, Repr

/-! ## MockProvider: language detection, normalization, context resolver -/

/-- MockProvider.is_urdu: does the text contain a character of the
Arabic / Urdu block. -/
def is_urdu (s : String) : Bool := s.data.any isUrduChar

/-- The four punctuation characters replaced by normalize_urdu. -/
def isUrduPunct (c : Char) : Bool :=
  c.toNat = 0x6D4 || c.toNat = 0x61F || c.toNat = 0x21 || c.toNat = 0x60C

/-- MockProvider.normalize_urdu: replace Urdu sentence punctuation by
spaces, then strip. -/
def normalize_urdu (l : List Char) : List Char :=
  pyStrip (l.map (fun c => if isUrduPunct c then ' ' else c))

/-- Confirmation-question id of one history entry, already lower-cased:
the digits captured by the confirmation pattern, if it matches. -/
def confId (content : List Char) : Option Nat :=
  match reSearch confPat content with
  | some m =>
    match m.group 1 with
    | some g => some (parseNat g)
    | none => none
  | none => none

/-- Task-id reference of one history entry, already lower-cased. -/
def idRef (content : List Char) : Option Nat :=
  match reSearch idPat content with
  | some m =>
    match m.group 1 with
    | some g => some (parseNat g)
    | none => none
  | none => none

/-- The backward scan of _get_context_from_history, over the reversed
history (newest first).  An assistant turn matching the confirmation
pattern sets the pending fields, seeds last_id when that is still falsy,
and stops the scan; any other turn can seed last_id from the task-id
reference pattern, and the scan continues. -/
def scanHistory : List Msg → Ctx → Ctx
  | [], c => c
  | m :: rest, c =>
    let content := pyLowerL m.content.data
    match (if m.role = "assistant" then confId content else none) with
    | some n =>
      { last_id := if truthy c.last_id then c.last_id else some n,
        pending_action := some "delete",
        pending_id := some n }
    | none =>
      let c2 :=
        match idRef content with
        | some n => if truthy c.last_id then c else { c with last_id := some n }
        | none => c
      scanHistory rest c2

/-- MockProvider._get_context_from_history. -/
def get_context_from_history (history : List Msg) : Ctx :=
  scanHistory history.reverse ⟨none, none, none⟩

/-! ## MockProvider: rules and process_message -/

/-- One rule of the ordered rule table: the intent tag, the pattern, and
the response generator taking the match object and the context id. -/
structure Rule where
  intent : String
  pattern : RE
  gen : RMatch → Option Nat → String × List ToolCall

/-- The fixed Urdu ordinal lookup of process_message. -/
def urduOrdinalsList : List (String × Nat) :=
  [("پہلا", 1), ("پہلے", 1), ("دوسرا", 2), ("دوسرے", 2), ("تیسرا", 3),
   ("تیسرے", 3), ("چوتھا", 4), ("چوتھے", 4), ("پانچواں", 5), ("پانچویں", 5)]

/-- Dictionary get on the ordinal lookup. -/
def urdu_ordinals (l : List Char) : Option Nat :=
  (urduOrdinalsList.find? (fun p => p.1.data = l)).map (fun p => p.2)

/-- The id computed by the Urdu generators:
urdu_ordinals.get(g, int(g) if g.isdigit() else 1). -/
def urduIdOf (g : List Char) : Nat :=
  match urdu_ordinals g with
  | some n => n
  | none => if g ≠ [] ∧ g.all pyIsDigit then parseNat g else 1

/-- The English delete-confirmation question template, shared by the
delete_request and delete_context generators (lines 181 and 189). -/
def enDeleteQuestion (s : String) : String :=
  "Are you sure you want to delete task " ++ s ++ "? This cannot be undone."

/-- The Urdu delete-confirmation question template (line 153). -/
def urDeleteQuestion (s : String) : String :=
  "کیا آپ واقعی ٹاسک " ++ s ++
  " کو حذف کرنا چاہتے ہیں؟ (Are you sure you want to delete task " ++
  s ++ "?)"

/-- The English add reply template (lines 167 and 172). -/
def enAddReply (t : String) : String :=
  "Sure! I" ++ sq ++ "ll add " ++ sq ++ t ++ sq ++ " to your list."

/-- The Urdu add reply template (line 142). -/
def urAddReply (t : String) : String :=
  "جی بالکل! میں " ++ sq ++ t ++ sq ++ " کو آپ کی فہرست میں شامل کر رہا ہوں۔"

/-- The English rule table of process_message (lines 162 to 194). -/
def english_rules (user_id : Int) : List Rule :=
  [⟨"list", listPatEn, fun _ _ => ("Fetching your todo list...", [])⟩,
   ⟨"add", addPatEn, fun m _ =>
     let t := String.mk (pyCapitalize (pyStrip ((m.group 1).getD [])))
     (enAddReply t,
      [⟨"create_todo", ⟨user_id, none, some t, none⟩, ""⟩])⟩,
   ⟨"add_implicit", addImplicitPatEn, fun m _ =>
     let t := String.mk (pyCapitalize (pyStrip ((m.group 1).getD [])))
     (enAddReply t,
      [⟨"create_todo", ⟨user_id, none, some t, none⟩, ""⟩])⟩,
   ⟨"complete_context", completeContextPatEn, fun _ ctx =>
     if truthy ctx then
       ("Marking task " ++ natRepr (ctx.getD 0) ++ " as complete.",
        [⟨"update_todo", ⟨user_id, some (ctx.getD 0), none, some true⟩, ""⟩])
     else ("Which task would you like to complete?", [])⟩,
   ⟨"delete_context", deleteContextPatEn, fun _ ctx =>
     if truthy ctx then (enDeleteQuestion (natRepr (ctx.getD 0)), [])
     else ("Which task would you like to delete?", [])⟩,
   ⟨"complete", completePatEn, fun m _ =>
     let g := (m.group 1).getD []
     ("Marking task " ++ String.mk g ++ " as complete.",
      [⟨"update_todo", ⟨user_id, some (parseNat g), none, some true⟩, ""⟩])⟩,
   ⟨"delete_request", deleteRequestPatEn, fun m _ =>
     (enDeleteQuestion (String.mk ((m.group 1).getD [])), [])⟩,
   ⟨"update", updatePatEn, fun m _ =>
     let g := (m.group 1).getD []
     let t := pyStrip ((m.group 2).getD [])
     ("Updating task " ++ String.mk g ++ " to " ++ sq ++ String.mk t ++
        sq ++ ".",
      [⟨"update_todo",
        ⟨user_id, some (parseNat g), some (String.mk t), none⟩, ""⟩])⟩]

/-- The Urdu rule table of process_message (lines 138 to 159). -/
def urdu_rules (user_id : Int) : List Rule :=
  [⟨"list", listPatUr, fun _ _ =>
     ("آپ کی ٹو ڈو فہرست حاصل کی جا رہی ہے...", [])⟩,
   ⟨"add", addPatUr, fun m _ =>
     let t := String.mk (pyStrip ((m.group 1).getD []) ++
       (if strTruthy (m.group 2) then
          ' ' :: pyStrip ((m.group 2).getD [])
        else []))
     (urAddReply t,
      [⟨"create_todo", ⟨user_id, none, some t, none⟩, ""⟩])⟩,
   ⟨"complete", completePatUr, fun m _ =>
     let g := (m.group 2).getD []
     ("ٹاسک " ++ String.mk g ++ " کو مکمل نشان زد کیا جا رہا ہے۔",
      [⟨"update_todo", ⟨user_id, some (urduIdOf g), none, some true⟩, ""⟩])⟩,
   ⟨"delete_request", deleteRequestPatUr, fun m _ =>
     (urDeleteQuestion (String.mk ((m.group 2).getD [])), [])⟩,
   ⟨"update", updatePatUr, fun m _ =>
     let g := (m.group 2).getD []
     let t := pyStrip ((m.group 5).getD [])
     ("ٹاسک " ++ String.mk g ++ " کو " ++ sq ++ String.mk t ++ sq ++
        " میں تبدیل کیا جا رہا ہے۔",
      [⟨"update_todo",
        ⟨user_id, some (urduIdOf g), some (String.mk t), none⟩, ""⟩])⟩]

/-- List enumeration with indices, the Python enumerate. -/
def enumFrom {α : Type} : Nat → List α → List (Nat × α)
  | _, [] => []
  | n, a :: as => (n, a) :: enumFrom (n + 1) as

/-- The list_todos call substituted for list-intent results (line 206). -/
def listToolCall (user_id : Int) : ToolCall :=
  ⟨"list_todos", ⟨user_id, none, none, none⟩,
   "mock_list_" ++ intRepr user_id⟩

/-- The tool-call post-processing inside the rule loop: a list intent gets
the fixed list_todos call; otherwise every call receives its mock
tool_use_id. -/
def postProcess (intent : String) (user_id : Int) (calls : List ToolCall) :
    List ToolCall :=
  if intent = "list" then [listToolCall user_id]
  else (enumFrom 0 calls).map (fun ic =>
    { ic.2 with tool_use_id :=
        "mock_" ++ intent ++ "_" ++ natRepr ic.1 ++ "_" ++ intRepr user_id })

/-- The rule loop of process_message: first matching rule wins; its
generator output is post-processed. -/
def applyRules :
    List Rule → List Char → Option Nat → Int →
    Option (String × String × List ToolCall)
  | [], _, _, _ => none
  | r :: rest, target, ctx, user_id =>
    match reSearch r.pattern target with
    | some m =>
      let tc := r.gen m ctx
      some (r.intent, tc.1, postProcess r.intent user_id tc.2)
    | none => applyRules rest target ctx user_id

/-- English affirmative reply of the confirmation flow (line 114). -/
def enYesReply (n : Nat) : String :=
  "I" ++ sq ++ "m deleting task " ++ natRepr n ++ " for you."

/-- Urdu affirmative reply of the confirmation flow (line 114). -/
def urYesReply (n : Nat) : String :=
  "میں ٹاسک " ++ natRepr n ++ " کو حذف کر رہا ہوں۔"

/-- English cancellation reply (line 127). -/
def enNoReply : String := "Deletion cancelled."

/-- Urdu cancellation reply (line 127). -/
def urNoReply : String := "حذف کرنے کا عمل منسوخ کر دیا گیا ہے۔"

/-- English unknown-intent help reply (line 222). -/
def enUnknownReply : String :=
  "I" ++ sq ++ "m sorry, I didn" ++ sq ++
  "t quite catch that. I can help you add, list, update, or delete tasks."

/-- Urdu unknown-intent help reply (line 220). -/
def urUnknownReply : String :=
  "معذرت، میں سمجھ نہیں سکا۔ میں کام شامل کرنے، فہرست دیکھنے، اپ ڈیٹ کرنے یا حذف کرنے میں آپ کی مدد کر سکتا ہوں۔"

/-- The guard of the confirmation flow (line 106): a delete pending action
with a truthy pending id. -/
def pendingLive (ctx : Ctx) : Bool :=
  ctx.pending_action = some "delete" && truthy ctx.pending_id

/-- The normalized message computed at the top of process_message:
normalize_urdu of the lower-cased text for Urdu input, lower-cased and
stripped text otherwise. -/
def mkMsg (user_message : String) : List Char :=
  if is_urdu user_message then normalize_urdu (pyLowerL user_message.data)
  else pyStrip (pyLowerL user_message.data)

/-- The rule table selected for the detected language. -/
def rulesFor (isU : Bool) (user_id : Int) : List Rule :=
  if isU then urdu_rules user_id else english_rules user_id

/-- The subject the rule patterns are searched in (line 198): the raw
message for Urdu, the normalized message for English. -/
def classifyTarget (isU : Bool) (raw msg : List Char) : List Char :=
  if isU then raw else msg

/-- The rule-table phase of process_message, lines 196 to 230: apply the
rules, or fall back to the unknown-intent help reply. -/
def ruleResponse (isU : Bool) (raw msg : List Char) (last_id : Option Nat)
    (user_id : Int) : AgentResponse :=
  match applyRules (rulesFor isU user_id) (classifyTarget isU raw msg)
      last_id user_id with
  | some (_, t, cs) =>
    ⟨t, cs, !cs.isEmpty, "end_turn", if isU then "ur" else "en"⟩
  | none =>
    ⟨if isU then urUnknownReply else enUnknownReply, [], false,
     "end_turn", if isU then "ur" else "en"⟩

/-- The body of process_message after language detection, normalization
and context resolution: the confirmation flow short-circuits when a
delete is pending and the message matches the affirmative or negative
pattern; otherwise the rule table runs. -/
def processCore (isU : Bool) (raw msg : List Char) (context : Ctx)
    (user_id : Int) : AgentResponse :=
  if pendingLive context then
    let pending_id := context.pending_id.getD 0
    if (reSearch yesPat msg).isSome then
      ⟨if isU then urYesReply pending_id else enYesReply pending_id,
       [⟨"delete_todo", ⟨user_id, some pending_id, none, none⟩,
         "mock_delete_confirm_" ++ intRepr user_id ++ "_" ++
           natRepr pending_id⟩],
       true, "end_turn", if isU then "ur" else "en"⟩
    else if (reSearch noPat msg).isSome then
      ⟨if isU then urNoReply else enNoReply, [], false, "end_turn",
       if isU then "ur" else "en"⟩
    else ruleResponse isU raw msg context.last_id user_id
  else ruleResponse isU raw msg context.last_id user_id

/-- MockProvider.process_message. -/
def process_message (user_message : String) (conversation_history : List Msg)
    (user_id : Int) : AgentResponse :=
  processCore (is_urdu user_message) user_message.data (mkMsg user_message)
    (get_context_from_history conversation_history) user_id

/-- The classification outcome of a turn: the winning rule intent, reply
text and post-processed tool calls, as computed inside process_message
when the confirmation flow does not short-circuit. -/
def classifyOf (user_message : String) (conversation_history : List Msg)
    (user_id : Int) : Option (String × String × List ToolCall) :=
  applyRules (rulesFor (is_urdu user_message) user_id)
    (classifyTarget (is_urdu user_message) user_message.data
      (mkMsg user_message))
    (get_context_from_history conversation_history).last_id user_id

/-! ## TodoAgent.process_tool_results (the result summarizer)

Embedding of process_tool_results from src/phase_iii/agent/agent.py.  The
tool-result dictionaries are modelled with the fields the code reads:
success, error, todos, todo_id, deleted and title; a field modelled as
none stands for an absent key, matching the Python membership tests.
The language detection of the summarizer scans the top-level string
values of each content dictionary, which in this model are the error and
title fields; the titles inside the todos list are values of nested
dictionaries and are not scanned, exactly as in the Python loop over
content.values(). -/

/-- One entry of a list_todos result. -/
structure TodoItem where
  id : Nat
  title : String
  completed : Bool
deriving DecidableEq, Repr

/-- The content dictionary of one tool result. -/
structure ToolContent where
  success : Bool
  error : Option String
  todos : Option (List TodoItem)
  todo_id : Option Nat
  deleted : Option Bool
  title : Option String
deriving DecidableEq, Repr

/-- One tool result handed to process_tool_results. -/
structure ToolResult where
  content : ToolContent
deriving DecidableEq, Repr

/-- The dictionary returned by process_tool_results. -/
structure SummaryResponse where
  response_text : String
  tool_calls : List ToolCall
  requires_tool_execution : Bool
deriving DecidableEq, Repr

/-- The top-level string values of a content dictionary. -/
def contentStringValues (c : ToolContent) : List String :=
  c.error.toList ++ c.title.toList

/-- The is_urdu_context detection of process_tool_results: some top-level
string value of some result contains an Urdu character. -/
def urduContextOf (tool_results : List ToolResult) : Bool :=
  tool_results.any (fun r => (contentStringValues r.content).any is_urdu)

/-- One line of a todo listing (lines 226 and 231 of agent.py). -/
def todoLine (t : TodoItem) : String :=
  "[" ++ (if t.completed then "✓" else " ") ++ "] " ++ natRepr t.id ++
  ": " ++ t.title

/-- Urdu failure reply of the summarizer. -/
def errUr (e : String) : String := "معذرت، ایک غلطی پیش آئی: " ++ e

/-- English failure reply of the summarizer. -/
def errEn (e : String) : String := "Sorry, I encountered an error: " ++ e

/-- Urdu empty-list sentence. -/
def emptyUr : String := "آپ کی ٹو ڈو فہرست فی الحال خالی ہے۔"

/-- English empty-list sentence. -/
def emptyEn : String := "Your todo list is currently empty."

/-- Urdu listing header. -/
def listHeaderUr : String := "آپ کی موجودہ فہرست یہ ہے:"

/-- English listing header. -/
def listHeaderEn : String := "Here is your current todo list:"

/-- Urdu deletion-confirmation sentence. -/
def delUr (n : Nat) : String :=
  "ٹاسک " ++ natRepr n ++ " کامیابی سے حذف کر دیا گیا۔"

/-- English deletion-confirmation sentence. -/
def delEn (n : Nat) : String :=
  "Successfully deleted task " ++ natRepr n ++ "."

/-- Urdu processed-successfully sentence. -/
def procUr (t : String) (n : Nat) : String :=
  "ٹاسک " ++ sq ++ t ++ sq ++ " کامیابی سے محفوظ کر لیا گیا (آئی ڈی: " ++
  natRepr n ++ ")۔"

/-- English processed-successfully sentence. -/
def procEn (t : String) (n : Nat) : String :=
  "Task " ++ sq ++ t ++ sq ++ " has been processed successfully (ID: " ++
  natRepr n ++ ")."

/-- Urdu generic-success sentence. -/
def opUr (n : Nat) : String :=
  "ٹاسک " ++ natRepr n ++ " پر عمل درآمد کامیاب رہا۔"

/-- English generic-success sentence. -/
def opEn (n : Nat) : String :=
  "Operation on task " ++ natRepr n ++ " was successful."

/-- Urdu default reply when no result produced a sentence. -/
def defaultUr : String := "آپ کی فہرست اپ ڈیٹ کر دی گئی ہے!"

/-- English default reply when no result produced a sentence. -/
def defaultEn : String :=
  "I" ++ sq ++ "ve updated your list as requested!"

/-- Python str.join with a separator: empty for the empty list, and the
pieces interleaved with the separator otherwise. -/
def joinSep (sep : String) : List String → String
  | [] => ""
  | [x] => x
  | x :: y :: rest => x ++ sep ++ joinSep sep (y :: rest)

/-- The sentence appended for one tool result, shaped like the branch
cascade of process_tool_results: failure, then a todos listing, then a
todo_id with a deletion marker, a title, or neither; a successful result
with none of these keys appends nothing. -/
def resultLine (isU : Bool) (c : ToolContent) : Option String :=
  if !c.success then
    some (if isU then errUr (c.error.getD "Unknown error")
          else errEn (c.error.getD "Unknown error"))
  else
    match c.todos with
    | some todos =>
      some (if todos.isEmpty then (if isU then emptyUr else emptyEn)
            else joinSep "\n"
              ((if isU then [listHeaderUr] else [listHeaderEn]) ++
                todos.map todoLine))
    | none =>
      match c.todo_id with
      | some tid =>
        some (if c.deleted.isSome then (if isU then delUr tid else delEn tid)
              else
                match c.title with
                | some t => if isU then procUr t tid else procEn t tid
                | none => if isU then opUr tid else opEn tid)
      | none => none

/-- TodoAgent.process_tool_results. -/
def process_tool_results (tool_results : List ToolResult) (_user_id : Int) :
    SummaryResponse :=
  let isU := urduContextOf tool_results
  let responses := tool_results.filterMap (fun r => resultLine isU r.content)
  ⟨if responses.isEmpty then (if isU then defaultUr else defaultEn)
   else joinSep " " responses,
   [], false⟩

/-! ## Concrete scenarios and auxiliary predicates used by the claims -/

/-- The confirmation-round-trip history of the spec: the user asked to
delete task 7 and the agent posed the confirmation question it emits for
that request. -/
def histC1 : List Msg :=
  [⟨"user", "delete task 7"⟩,
   ⟨"assistant", "Are you sure you want to delete task 7? This cannot be undone."⟩]

/-- The reference-resolution history of the spec: a task was added and
the agent reported its id. -/
def histC5 : List Msg :=
  [⟨"user", "Add task Buy milk"⟩,
   ⟨"assistant", "Task added successfully. (ID: 5)"⟩]

/-- A history whose newest Agent turn is not a confirmation question but
which contains an older, unanswered confirmation question. -/
def histC3 : List Msg :=
  [⟨"user", "delete task 5"⟩,
   ⟨"assistant", "Are you sure you want to delete task 5? This cannot be undone."⟩,
   ⟨"user", "show my tasks"⟩,
   ⟨"assistant", "Fetching your todo list..."⟩]

/-- The create-scenario tool result: storage succeeded with id 42 for the
title the engine extracted. -/
def resultC6 : ToolResult :=
  ⟨⟨true, none, none, some 42, none, some "Buy groceries tomorrow"⟩⟩

/-- An Urdu list command. -/
def urduListInput : String := "فہرست دکھائیں"

/-- A successful list result whose content holds no top-level string
value and whose task titles are pure ASCII. -/
def asciiListResult : ToolResult :=
  ⟨⟨true, none, some [⟨1, "Buy milk", false⟩], none, none, none⟩⟩

/-- The pending action described by the spec invariant: the newest Agent
turn whose text matches the confirmation-question pattern determines the
pending id.  This definition follows the spec wording (the most recent
Agent turn that poses a confirmation question wins) and is compared with
the embedded resolver in the amended claim C3. -/
def specNewestConfId (history : List Msg) : Option Nat :=
  history.reverse.findSome? (fun m =>
    if m.role = "assistant" then confId (pyLowerL m.content.data) else none)

/-- A string free of Arabic / Urdu block characters. -/
abbrev StrNoUrdu (s : String) : Prop := ∀ c ∈ s.data, isUrduChar c = false

/-- A character list free of Arabic / Urdu block characters. -/
abbrev CharsNoUrdu (l : List Char) : Prop := ∀ c ∈ l, isUrduChar c = false

/-- Well-formedness of one rule generator with respect to a user id: it
emits at most one tool call, every call carries that user id, and every
call is a create_todo or an update_todo. -/
def GenOK (uid : Int) (r : Rule) : Prop :=
  ∀ m ctx,
    (r.gen m ctx).2.length ≤ 1 ∧
    ∀ c ∈ (r.gen m ctx).2,
      c.input.user_id = uid ∧
      (c.name = "create_todo" ∨ c.name = "update_todo")

/-- The generator reply text is never empty. -/
def GenTextNE (r : Rule) : Prop := ∀ m ctx, (r.gen m ctx).1 ≠ ""

/-! ## Helper lemmas -/

theorem toNat_ofNat_valid {n : Nat} (h : Nat.isValidChar n) :
    (Char.ofNat n).toNat = n := by
  simp [Char.ofNat, Char.ofNatAux, Char.toNat, h]
  rfl

theorem data_append (a b : String) : (a ++ b).data = a.data ++ b.data := by
  cases a; cases b; rfl

theorem enumFrom_length {α : Type} :
    ∀ (n : Nat) (l : List α), (enumFrom n l).length = l.length
  | _, [] => rfl
  | n, _ :: as => by simp [enumFrom, enumFrom_length (n + 1) as]

theorem mem_enumFrom_map {α β : Type} (f : Nat × α → β) :
    ∀ (n : Nat) (l : List α) (b : β), b ∈ (enumFrom n l).map f →
      ∃ k a, a ∈ l ∧ b = f (k, a)
  | _, [], b => by simp [enumFrom]
  | n, a :: as, b => by
    intro hb
    simp only [enumFrom, List.map_cons, List.mem_cons] at hb
    rcases hb with h | h
    · exact ⟨n, a, by simp, h⟩
    · obtain ⟨k, a2, ha2, hb2⟩ := mem_enumFrom_map f (n + 1) as b h
      exact ⟨k, a2, by simp [ha2], hb2⟩

theorem postProcess_length (intent : String) (uid : Int)
    (cs : List ToolCall) :
    (postProcess intent uid cs).length =
      if intent = "list" then 1 else cs.length := by
  unfold postProcess
  split
  · simp
  · simp [enumFrom_length]

theorem mem_postProcess {c : ToolCall} {intent : String} {uid : Int}
    {cs : List ToolCall} (h : c ∈ postProcess intent uid cs) :
    (intent = "list" ∧ c = listToolCall uid) ∨
      ∃ c2 ∈ cs, c.name = c2.name ∧ c.input = c2.input := by
  unfold postProcess at h
  split at h
  · exact Or.inl ⟨by assumption, by simpa using h⟩
  · right
    obtain ⟨k, a, ha, hb⟩ := mem_enumFrom_map _ 0 cs c h
    exact ⟨a, ha, by rw [hb], by rw [hb]⟩

theorem applyRules_eq_some :
    ∀ (rules : List Rule) (target : List Char) (ctxv : Option Nat)
      (uid : Int) (res : String × String × List ToolCall),
      applyRules rules target ctxv uid = some res →
      ∃ r, r ∈ rules ∧ ∃ m, reSearch r.pattern target = some m ∧
        res = (r.intent, (r.gen m ctxv).1,
          postProcess r.intent uid (r.gen m ctxv).2) := by
  intro rules
  induction rules with
  | nil => intro target ctxv uid res h; simp [applyRules] at h
  | cons r rest ih =>
    intro target ctxv uid res h
    rw [applyRules] at h
    cases hs : reSearch r.pattern target with
    | some m =>
      rw [hs] at h
      simp only [Option.some.injEq] at h
      exact ⟨r, by simp, m, hs, h.symm⟩
    | none =>
      rw [hs] at h
      obtain ⟨r2, hr2, hrest⟩ := ih target ctxv uid res h
      exact ⟨r2, by simp [hr2], hrest⟩

theorem reSearch_str {re : RE} {s : List Char} {m : RMatch}
    (h : reSearch re s = some m) : m.str = s := by
  unfold reSearch at h
  cases haux : reSearchAux re s (s.length + 1) 0 with
  | none => rw [haux] at h; cases h
  | some t =>
    obtain ⟨st, en, caps⟩ := t
    rw [haux] at h
    simp only [Option.some.injEq] at h
    rw [← h]

theorem mem_of_group {m : RMatch} {i : Nat} {g : List Char}
    (h : m.group i = some g) : ∀ c ∈ g, c ∈ m.str := by
  intro c hc
  unfold RMatch.group at h
  split at h
  · simp only [Option.some.injEq] at h
    subst h
    exact List.drop_subset _ _ (List.take_subset _ _ hc)
  · cases hfind : m.caps.find? (fun t => t.1 = i) with
    | none => rw [hfind] at h; cases h
    | some t =>
      obtain ⟨j, a, b⟩ := t
      rw [hfind] at h
      simp only [Option.some.injEq] at h
      subst h
      exact List.drop_subset _ _ (List.take_subset _ _ hc)

theorem notUrdu_of_small {c : Char} (h : c.toNat < 0x600) :
    isUrduChar c = false := by
  unfold isUrduChar
  simp only [Bool.and_eq_false_iff, decide_eq_false_iff_not]
  omega

theorem pyLowerC_notUrdu {c : Char} (h : isUrduChar c = false) :
    isUrduChar (pyLowerC c) = false := by
  unfold pyLowerC
  split
  · apply notUrdu_of_small
    rw [toNat_ofNat_valid (Or.inl (by omega))]
    omega
  · exact h

theorem pyUpperC_notUrdu {c : Char} (h : isUrduChar c = false) :
    isUrduChar (pyUpperC c) = false := by
  unfold pyUpperC
  split
  · apply notUrdu_of_small
    rw [toNat_ofNat_valid (Or.inl (by omega))]
    omega
  · exact h

theorem mem_pyStrip {l : List Char} {c : Char} (h : c ∈ pyStrip l) :
    c ∈ l := by
  unfold pyStrip at h
  rw [List.mem_reverse] at h
  have h2 := (List.dropWhile_sublist (l := (l.dropWhile pyIsSpace).reverse)
    (p := pyIsSpace)).subset h
  rw [List.mem_reverse] at h2
  exact (List.dropWhile_sublist (l := l) (p := pyIsSpace)).subset h2

theorem mem_pyCapitalize {l : List Char} {c : Char}
    (h : c ∈ pyCapitalize l) :
    ∃ c0 ∈ l, c = pyUpperC c0 ∨ c = pyLowerC c0 := by
  cases l with
  | nil => simp [pyCapitalize] at h
  | cons c0 cs =>
    simp only [pyCapitalize, List.mem_cons] at h
    rcases h with h | h
    · exact ⟨c0, by simp, Or.inl h⟩
    · obtain ⟨c1, hc1, hc⟩ := List.mem_map.mp h
      exact ⟨c1, by simp [hc1], Or.inr hc.symm⟩

theorem charsNoUrdu_natDigits :
    ∀ (fuel n : Nat), CharsNoUrdu (natDigitsAux fuel n) := by
  intro fuel
  induction fuel with
  | zero => intro n c hc; simp [natDigitsAux] at hc
  | succ f ih =>
    intro n c hc
    rw [natDigitsAux] at hc
    split at hc
    · simp only [List.mem_singleton] at hc
      subst hc
      apply notUrdu_of_small
      rw [toNat_ofNat_valid (Or.inl (by omega))]
      omega
    · rw [List.mem_append] at hc
      rcases hc with hc | hc
      · exact ih (n / 10) c hc
      · simp only [List.mem_singleton] at hc
        subst hc
        apply notUrdu_of_small
        have : n % 10 < 10 := Nat.mod_lt _ (by omega)
        rw [toNat_ofNat_valid (Or.inl (by omega))]
        omega

theorem natRepr_noUrdu (n : Nat) : StrNoUrdu (natRepr n) := by
  intro c hc
  exact charsNoUrdu_natDigits (n + 1) n c hc

theorem strNoUrdu_append {a b : String} (ha : StrNoUrdu a)
    (hb : StrNoUrdu b) : StrNoUrdu (a ++ b) := by
  intro c hc
  rw [data_append, List.mem_append] at hc
  rcases hc with hc | hc
  · exact ha c hc
  · exact hb c hc

theorem strNoUrdu_mk {l : List Char} (h : CharsNoUrdu l) :
    StrNoUrdu (String.mk l) := h

theorem is_urdu_false_iff (s : String) : is_urdu s = false ↔ StrNoUrdu s := by
  unfold is_urdu StrNoUrdu
  constructor
  · intro h c hc
    by_contra hcon
    have : s.data.any isUrduChar = true :=
      List.any_eq_true.mpr ⟨c, hc, by revert hcon; cases isUrduChar c <;> simp⟩
    rw [h] at this
    cases this
  · intro h
    by_contra hcon
    rw [Bool.not_eq_false, List.any_eq_true] at hcon
    obtain ⟨c, hc, hurdu⟩ := hcon
    rw [h c hc] at hurdu
    cases hurdu

theorem is_urdu_append (a b : String) :
    is_urdu (a ++ b) = (is_urdu a || is_urdu b) := by
  unfold is_urdu
  rw [data_append, List.any_append]

theorem is_urdu_left {a : String} (h : is_urdu a = true) (b : String) :
    is_urdu (a ++ b) = true := by
  rw [is_urdu_append, h, Bool.true_or]

theorem ne_empty_of_data {s : String} (h : s.data ≠ []) : s ≠ "" :=
  fun he => h (by rw [he])

theorem data_append_ne_left {a b : String} (h : a.data ≠ []) :
    (a ++ b).data ≠ [] := by
  rw [data_append]
  intro hc
  exact h (List.append_eq_nil.mp hc).1

theorem group_chars_noUrdu {m : RMatch} (hstr : CharsNoUrdu m.str)
    (i : Nat) : CharsNoUrdu ((m.group i).getD []) := by
  cases hg : m.group i with
  | none => intro c hc; simp at hc
  | some g => intro c hc; exact hstr c (mem_of_group hg c hc)

theorem charsNoUrdu_pyStrip {l : List Char} (h : CharsNoUrdu l) :
    CharsNoUrdu (pyStrip l) :=
  fun c hc => h c (mem_pyStrip hc)

theorem charsNoUrdu_pyCapitalize {l : List Char} (h : CharsNoUrdu l) :
    CharsNoUrdu (pyCapitalize l) := by
  intro c hc
  obtain ⟨c0, hc0, hor⟩ := mem_pyCapitalize hc
  rcases hor with rfl | rfl
  · exact pyUpperC_notUrdu (h c0 hc0)
  · exact pyLowerC_notUrdu (h c0 hc0)

theorem english_rules_GenOK (uid : Int) :
    ∀ r ∈ english_rules uid, GenOK uid r := by
  intro r hr
  simp only [english_rules, List.mem_cons, List.not_mem_nil, or_false] at hr
  rcases hr with rfl | rfl | rfl | rfl | rfl | rfl | rfl | rfl <;>
      intro m ctx <;> dsimp only <;> try split
  all_goals
    refine ⟨by simp, ?_⟩
    intro c hc
    first
    | exact absurd hc (List.not_mem_nil c)
    | (rw [List.mem_singleton] at hc
       subst hc
       refine ⟨rfl, ?_⟩
       first
       | exact Or.inl rfl
       | exact Or.inr rfl)

theorem urdu_rules_GenOK (uid : Int) :
    ∀ r ∈ urdu_rules uid, GenOK uid r := by
  intro r hr
  simp only [urdu_rules, List.mem_cons, List.not_mem_nil, or_false] at hr
  rcases hr with rfl | rfl | rfl | rfl | rfl <;>
      intro m ctx <;> dsimp only <;> try split
  all_goals
    refine ⟨by simp, ?_⟩
    intro c hc
    first
    | exact absurd hc (List.not_mem_nil c)
    | (rw [List.mem_singleton] at hc
       subst hc
       refine ⟨rfl, ?_⟩
       first
       | exact Or.inl rfl
       | exact Or.inr rfl)

theorem english_rules_TextNE (uid : Int) :
    ∀ r ∈ english_rules uid, GenTextNE r := by
  intro r hr
  simp only [english_rules, List.mem_cons, List.not_mem_nil, or_false] at hr
  rcases hr with rfl | rfl | rfl | rfl | rfl | rfl | rfl | rfl <;>
      intro m ctx <;> dsimp only [enAddReply, enDeleteQuestion] <;> try split
  all_goals
    apply ne_empty_of_data
    repeat apply data_append_ne_left
    decide

theorem urdu_rules_TextNE (uid : Int) :
    ∀ r ∈ urdu_rules uid, GenTextNE r := by
  intro r hr
  simp only [urdu_rules, List.mem_cons, List.not_mem_nil, or_false] at hr
  rcases hr with rfl | rfl | rfl | rfl | rfl <;>
      intro m ctx <;> dsimp only [urAddReply, urDeleteQuestion] <;> try split
  all_goals
    apply ne_empty_of_data
    repeat apply data_append_ne_left
    decide

theorem urdu_rules_TextUr (uid : Int) :
    ∀ r ∈ urdu_rules uid, ∀ m ctx, is_urdu (r.gen m ctx).1 = true := by
  intro r hr
  simp only [urdu_rules, List.mem_cons, List.not_mem_nil, or_false] at hr
  rcases hr with rfl | rfl | rfl | rfl | rfl <;>
      intro m ctx <;> dsimp only [urAddReply, urDeleteQuestion] <;> try split
  all_goals
    repeat apply is_urdu_left
    decide

theorem english_rules_TextNoUrdu (uid : Int) :
    ∀ r ∈ english_rules uid, ∀ m ctx, CharsNoUrdu m.str →
      StrNoUrdu (r.gen m ctx).1 := by
  intro r hr m ctx hstr
  simp only [english_rules, List.mem_cons, List.not_mem_nil, or_false] at hr
  rcases hr with rfl | rfl | rfl | rfl | rfl | rfl | rfl | rfl <;>
      dsimp only [enAddReply, enDeleteQuestion] <;> try split
  all_goals
    repeat
      first
      | refine strNoUrdu_append ?_ ?_
      | exact natRepr_noUrdu _
      | exact strNoUrdu_mk
          (charsNoUrdu_pyCapitalize (charsNoUrdu_pyStrip
            (group_chars_noUrdu hstr _)))
      | exact strNoUrdu_mk (charsNoUrdu_pyStrip (group_chars_noUrdu hstr _))
      | exact strNoUrdu_mk (group_chars_noUrdu hstr _)
      | decide

theorem rulesFor_GenOK (isU : Bool) (uid : Int) :
    ∀ r ∈ rulesFor isU uid, GenOK uid r := by
  cases isU
  · exact english_rules_GenOK uid
  · exact urdu_rules_GenOK uid

theorem rulesFor_TextNE (isU : Bool) (uid : Int) :
    ∀ r ∈ rulesFor isU uid, GenTextNE r := by
  cases isU
  · exact english_rules_TextNE uid
  · exact urdu_rules_TextNE uid

theorem applyRules_calls_length {rules : List Rule} {target : List Char}
    {ctxv : Option Nat} {uid : Int} {res : String × String × List ToolCall}
    (hgood : ∀ r ∈ rules, GenOK uid r)
    (h : applyRules rules target ctxv uid = some res) :
    res.2.2.length ≤ 1 := by
  obtain ⟨r, hr, m, _, rfl⟩ := applyRules_eq_some rules target ctxv uid res h
  rw [postProcess_length]
  split
  · omega
  · exact ((hgood r hr) m ctxv).1

theorem applyRules_calls_mem {rules : List Rule} {target : List Char}
    {ctxv : Option Nat} {uid : Int} {res : String × String × List ToolCall}
    {c : ToolCall} (hgood : ∀ r ∈ rules, GenOK uid r)
    (h : applyRules rules target ctxv uid = some res) (hc : c ∈ res.2.2) :
    c.input.user_id = uid ∧
      (c.name = "list_todos" ∨ c.name = "create_todo" ∨
        c.name = "update_todo") := by
  obtain ⟨r, hr, m, _, rfl⟩ := applyRules_eq_some rules target ctxv uid res h
  rcases mem_postProcess hc with ⟨_, rfl⟩ | ⟨c2, hc2, hname, hinput⟩
  · exact ⟨rfl, Or.inl rfl⟩
  · obtain ⟨huser, hname2⟩ := ((hgood r hr) m ctxv).2 c2 hc2
    refine ⟨by rw [hinput]; exact huser, ?_⟩
    rw [hname]
    rcases hname2 with h2 | h2
    · exact Or.inr (Or.inl h2)
    · exact Or.inr (Or.inr h2)

theorem applyRules_text_ne {rules : List Rule} {target : List Char}
    {ctxv : Option Nat} {uid : Int} {res : String × String × List ToolCall}
    (hgood : ∀ r ∈ rules, GenTextNE r)
    (h : applyRules rules target ctxv uid = some res) :
    res.2.1 ≠ "" := by
  obtain ⟨r, hr, m, _, rfl⟩ := applyRules_eq_some rules target ctxv uid res h
  exact (hgood r hr) m ctxv

theorem ruleResponse_calls_length (isU : Bool) (raw msg : List Char)
    (last_id : Option Nat) (uid : Int) :
    (ruleResponse isU raw msg last_id uid).tool_calls.length ≤ 1 := by
  unfold ruleResponse
  cases happly : applyRules (rulesFor isU uid) (classifyTarget isU raw msg)
      last_id uid with
  | none => simp
  | some res =>
    obtain ⟨i, t, cs⟩ := res
    dsimp only
    exact applyRules_calls_length (rulesFor_GenOK isU uid) happly

theorem ruleResponse_calls_mem {isU : Bool} {raw msg : List Char}
    {last_id : Option Nat} {uid : Int} {c : ToolCall}
    (hc : c ∈ (ruleResponse isU raw msg last_id uid).tool_calls) :
    c.input.user_id = uid ∧
      (c.name = "list_todos" ∨ c.name = "create_todo" ∨
        c.name = "update_todo") := by
  unfold ruleResponse at hc
  revert hc
  cases happly : applyRules (rulesFor isU uid) (classifyTarget isU raw msg)
      last_id uid with
  | none => intro hc; simp at hc
  | some res =>
    obtain ⟨i, t, cs⟩ := res
    dsimp only
    intro hc
    exact applyRules_calls_mem (rulesFor_GenOK isU uid) happly hc

theorem ruleResponse_text_ne (isU : Bool) (raw msg : List Char)
    (last_id : Option Nat) (uid : Int) :
    (ruleResponse isU raw msg last_id uid).response_text ≠ "" := by
  unfold ruleResponse
  cases happly : applyRules (rulesFor isU uid) (classifyTarget isU raw msg)
      last_id uid with
  | none =>
    dsimp only
    cases isU
    · apply ne_empty_of_data
      repeat apply data_append_ne_left
      decide
    · decide
  | some res =>
    obtain ⟨i, t, cs⟩ := res
    dsimp only
    exact applyRules_text_ne (rulesFor_TextNE isU uid) happly

theorem scanHistory_truthy :
    ∀ (l : List Msg) (c : Ctx),
      (truthy c.pending_id = true → truthy c.last_id = true) →
      (truthy (scanHistory l c).pending_id = true →
        truthy (scanHistory l c).last_id = true) := by
  intro l
  induction l with
  | nil => intro c hc; exact hc
  | cons m rest ih =>
    intro c hc
    rw [scanHistory]
    cases hconf : (if m.role = "assistant"
        then confId (pyLowerL m.content.data) else none) with
    | some n =>
      dsimp only
      intro hp
      by_cases hl : truthy c.last_id = true
      · rw [if_pos hl]; exact hl
      · rw [if_neg hl]; exact hp
    | none =>
      dsimp only
      apply ih
      cases hid : idRef (pyLowerL m.content.data) with
      | none => exact hc
      | some k =>
        dsimp only
        by_cases hl : truthy c.last_id = true
        · rw [if_pos hl]; exact hc
        · rw [if_neg hl]
          intro hp
          exact absurd (hc hp) hl

theorem context_truthy (hist : List Msg) :
    truthy (get_context_from_history hist).pending_id = true →
    truthy (get_context_from_history hist).last_id = true := by
  apply scanHistory_truthy
  intro h
  simp [truthy] at h

theorem pendingLive_truthy {ctx : Ctx} (h : pendingLive ctx = true) :
    truthy ctx.pending_id = true := by
  unfold pendingLive at h
  exact (Bool.and_eq_true_iff.mp h).2

theorem scanHistory_pending :
    ∀ (l : List Msg) (c : Ctx),
      c.pending_action = none → c.pending_id = none →
      ((scanHistory l c).pending_action, (scanHistory l c).pending_id) =
        (match l.findSome? (fun m => if m.role = "assistant"
            then confId (pyLowerL m.content.data) else none) with
         | some n => (some "delete", some n)
         | none => (none, none)) := by
  intro l
  induction l with
  | nil =>
    intro c h1 h2
    simp only [scanHistory, List.findSome?]
    rw [h1, h2]
  | cons m rest ih =>
    intro c h1 h2
    rw [scanHistory, List.findSome?]
    cases hconf : (if m.role = "assistant"
        then confId (pyLowerL m.content.data) else none) with
    | some n => rfl
    | none =>
      dsimp only
      apply ih
      · cases hid : idRef (pyLowerL m.content.data) with
        | none => exact h1
        | some k =>
          dsimp only
          split
          · exact h1
          · exact h1
      · cases hid : idRef (pyLowerL m.content.data) with
        | none => exact h2
        | some k =>
          dsimp only
          split
          · exact h2
          · exact h2

theorem process_eq_ruleResponse {hist : List Msg} (input : String)
    (uid : Int)
    (hpend : pendingLive (get_context_from_history hist) = false) :
    process_message input hist uid =
      ruleResponse (is_urdu input) input.data (mkMsg input)
        (get_context_from_history hist).last_id uid := by
  unfold process_message processCore
  simp only [hpend, Bool.false_eq_true, if_false]

/-- Claim C9: for every input, history and user id, process_message
returns at most one tool call. -/
theorem claim_C9 (input : String) (hist : List Msg) (uid : Int) :
    (process_message input hist uid).tool_calls.length ≤ 1 := by
  unfold process_message processCore
  split
  · dsimp only
    split
    · simp
    · split
      · simp
      · exact ruleResponse_calls_length _ _ _ _ _
  · exact ruleResponse_calls_length _ _ _ _ _

/-- Claim C10: every tool call emitted by process_message carries in its
input the user id the invocation was made with. -/
theorem claim_C10 (input : String) (hist : List Msg) (uid : Int)
    (c : ToolCall)
    (hc : c ∈ (process_message input hist uid).tool_calls) :
    c.input.user_id = uid := by
  unfold process_message processCore at hc
  revert hc
  split
  · dsimp only
    split
    · intro hc
      rw [List.mem_singleton] at hc
      subst hc
      rfl
    · split
      · intro hc; simp at hc
      · intro hc; exact (ruleResponse_calls_mem hc).1
  · intro hc; exact (ruleResponse_calls_mem hc).1

/-- Witness for C10 at a concrete invocation. -/
theorem claim_C10_witness :
    (⟨"create_todo", ⟨3, none, some "Buy milk", none⟩, "mock_add_0_3"⟩ :
        ToolCall) ∈ (process_message "add task buy milk" [] 3).tool_calls ∧
    (⟨"create_todo", ⟨3, none, some "Buy milk", none⟩, "mock_add_0_3"⟩ :
        ToolCall).input.user_id = 3 :=
  ⟨by decide, claim_C10 "add task buy milk" [] 3 _ (by decide)⟩

/-- Claim C2: while no delete confirmation is pending, a turn classified
as a delete request (an explicit delete_request match, or a context
delete with a resolvable id) returns the confirmation question as its
reply and an empty tool-call list; no delete_todo call is emitted in that
turn. -/
theorem claim_C2 (input : String) (hist : List Msg) (uid : Int)
    (i t : String) (cs : List ToolCall)
    (hpend : pendingLive (get_context_from_history hist) = false)
    (hclass : classifyOf input hist uid = some (i, t, cs))
    (hdel : i = "delete_request" ∨ (i = "delete_context" ∧
      truthy (get_context_from_history hist).last_id = true)) :
    (process_message input hist uid).response_text = t ∧
    (process_message input hist uid).tool_calls = [] ∧
    (∃ s, t = enDeleteQuestion s ∨ t = urDeleteQuestion s) := by
  unfold classifyOf at hclass
  have hkey : cs = [] ∧
      ∃ s, t = enDeleteQuestion s ∨ t = urDeleteQuestion s := by
    obtain ⟨r, hr, m, _, heq⟩ := applyRules_eq_some _ _ _ _ _ hclass
    rw [Prod.mk.injEq, Prod.mk.injEq] at heq
    obtain ⟨hi, ht, hcs⟩ := heq
    revert hr
    cases hU : is_urdu input <;> intro hr
    · simp only [rulesFor, Bool.false_eq_true, if_false, english_rules,
        List.mem_cons, List.not_mem_nil, or_false] at hr
      rcases hr with rfl | rfl | rfl | rfl | rfl | rfl | rfl | rfl <;>
          dsimp only at hi ht hcs <;>
          rw [hi] at hdel
      · rcases hdel with h | ⟨h, _⟩ <;> exact absurd h (by decide)
      · rcases hdel with h | ⟨h, _⟩ <;> exact absurd h (by decide)
      · rcases hdel with h | ⟨h, _⟩ <;> exact absurd h (by decide)
      · rcases hdel with h | ⟨h, _⟩ <;> exact absurd h (by decide)
      · -- delete_context
        rcases hdel with h | ⟨_, htr⟩
        · exact absurd h (by decide)
        · rw [if_pos htr] at ht hcs
          refine ⟨by rw [hcs]; rfl, _, Or.inl ht⟩
      · rcases hdel with h | ⟨h, _⟩ <;> exact absurd h (by decide)
      · -- delete_request
        refine ⟨by rw [hcs]; rfl, _, Or.inl ht⟩
      · rcases hdel with h | ⟨h, _⟩ <;> exact absurd h (by decide)
    · simp only [rulesFor, if_true, urdu_rules,
        List.mem_cons, List.not_mem_nil, or_false] at hr
      rcases hr with rfl | rfl | rfl | rfl | rfl <;>
          dsimp only at hi ht hcs <;>
          rw [hi] at hdel
      · rcases hdel with h | ⟨h, _⟩ <;> exact absurd h (by decide)
      · rcases hdel with h | ⟨h, _⟩ <;> exact absurd h (by decide)
      · rcases hdel with h | ⟨h, _⟩ <;> exact absurd h (by decide)
      · -- delete_request (Urdu)
        refine ⟨by rw [hcs]; rfl, _, Or.inr ht⟩
      · rcases hdel with h | ⟨h, _⟩ <;> exact absurd h (by decide)
  rw [process_eq_ruleResponse input uid hpend]
  unfold ruleResponse
  rw [hclass]
  exact ⟨rfl, hkey.1, hkey.2⟩

/-- Witness for C2 at the input delete task 9 with empty history. -/
theorem claim_C2_witness :
    (process_message "delete task 9" [] 2).response_text =
      enDeleteQuestion "9" ∧
    (process_message "delete task 9" [] 2).tool_calls = [] := by
  have h := claim_C2 "delete task 9" [] 2 "delete_request"
    (enDeleteQuestion "9") [] (by decide) (by decide) (Or.inl rfl)
  exact ⟨h.1, h.2.1⟩

/-- Claim C5: with the add-then-report history, the bare reference
complete it resolves to task 5 and dispatches one completing update_todo
call; and whenever the history yields no resolvable referenced task, a
turn classified as a bare-reference complete emits no tool call and asks
which task to complete. -/
theorem claim_C5 :
    ((process_message "Actually, complete it" histC5 1).tool_calls =
        [⟨"update_todo", ⟨1, some 5, none, some true⟩,
          "mock_complete_context_0_1"⟩] ∧
      (process_message "Actually, complete it" histC5 1).response_text =
        "Marking task 5 as complete.") ∧
    ∀ (input : String) (hist : List Msg) (uid : Int) (t : String)
      (cs : List ToolCall),
      truthy (get_context_from_history hist).last_id = false →
      classifyOf input hist uid = some ("complete_context", t, cs) →
      (process_message input hist uid).tool_calls = [] ∧
      (process_message input hist uid).response_text =
        "Which task would you like to complete?" := by
  constructor
  · exact ⟨by decide, by decide⟩
  · intro input hist uid t cs hfalsy hclass
    have hpend : pendingLive (get_context_from_history hist) = false := by
      by_contra hcon
      rw [Bool.not_eq_false] at hcon
      have h2 := context_truthy hist (pendingLive_truthy hcon)
      rw [hfalsy] at h2
      cases h2
    unfold classifyOf at hclass
    have hkey : cs = [] ∧
        t = "Which task would you like to complete?" := by
      obtain ⟨r, hr, m, _, heq⟩ := applyRules_eq_some _ _ _ _ _ hclass
      rw [Prod.mk.injEq, Prod.mk.injEq] at heq
      obtain ⟨hi, ht, hcs⟩ := heq
      revert hr
      cases hU : is_urdu input <;> intro hr
      · simp only [rulesFor, Bool.false_eq_true, if_false, english_rules,
          List.mem_cons, List.not_mem_nil, or_false] at hr
        rcases hr with rfl | rfl | rfl | rfl | rfl | rfl | rfl | rfl <;>
            dsimp only at hi ht hcs
        · exact absurd hi (by decide)
        · exact absurd hi (by decide)
        · exact absurd hi (by decide)
        · -- complete_context
          rw [if_neg (by rw [hfalsy]; decide)] at ht hcs
          exact ⟨by rw [hcs]; rfl, ht⟩
        · exact absurd hi (by decide)
        · exact absurd hi (by decide)
        · exact absurd hi (by decide)
        · exact absurd hi (by decide)
      · simp only [rulesFor, if_true, urdu_rules,
          List.mem_cons, List.not_mem_nil, or_false] at hr
        rcases hr with rfl | rfl | rfl | rfl | rfl <;>
            dsimp only at hi ht hcs
        · exact absurd hi (by decide)
        · exact absurd hi (by decide)
        · exact absurd hi (by decide)
        · exact absurd hi (by decide)
        · exact absurd hi (by decide)
    rw [process_eq_ruleResponse input uid hpend]
    unfold ruleResponse
    rw [hclass]
    exact ⟨hkey.1, hkey.2⟩

/-- Witness for the universally quantified part of C5, at the input
complete it with empty history. -/
theorem claim_C5_witness :
    (process_message "complete it" [] 1).tool_calls = [] ∧
    (process_message "complete it" [] 1).response_text =
      "Which task would you like to complete?" :=
  claim_C5.2 "complete it" [] 1
    "Which task would you like to complete?" [] (by decide) (by decide)

theorem pyIsSpace_cases {c : Char} (h : pyIsSpace c = true) :
    c = ' ' ∨ c = Char.ofNat 9 ∨ c = Char.ofNat 10 ∨ c = Char.ofNat 13 ∨
    c = Char.ofNat 11 ∨ c = Char.ofNat 12 := by
  unfold pyIsSpace at h
  simp only [Bool.or_eq_true, decide_eq_true_eq] at h
  tauto

theorem space_notUrdu {c : Char} (h : pyIsSpace c = true) :
    isUrduChar c = false := by
  rcases pyIsSpace_cases h with rfl | rfl | rfl | rfl | rfl | rfl <;> decide

theorem space_lower {c : Char} (h : pyIsSpace c = true) : pyLowerC c = c := by
  rcases pyIsSpace_cases h with rfl | rfl | rfl | rfl | rfl | rfl <;> decide

theorem all_space_is_urdu_false {s : String}
    (h : ∀ c ∈ s.data, pyIsSpace c = true) : is_urdu s = false := by
  rw [is_urdu_false_iff]
  intro c hc
  exact space_notUrdu (h c hc)

theorem dropWhile_all {p : Char → Bool} :
    ∀ {l : List Char}, (∀ c ∈ l, p c = true) → l.dropWhile p = [] := by
  intro l
  induction l with
  | nil => intro _; rfl
  | cons a as ih =>
    intro h
    rw [List.dropWhile_cons, if_pos (h a (by simp))]
    exact ih (fun c hc => h c (by simp [hc]))

theorem pyStrip_all_space {l : List Char}
    (h : ∀ c ∈ l, pyIsSpace c = true) : pyStrip l = [] := by
  unfold pyStrip
  rw [dropWhile_all h]
  rfl

theorem mkMsg_space {input : String}
    (h : ∀ c ∈ input.data, pyIsSpace c = true) : mkMsg input = [] := by
  unfold mkMsg
  rw [all_space_is_urdu_false h]
  simp only [Bool.false_eq_true, if_false]
  apply pyStrip_all_space
  intro c hc
  obtain ⟨c0, hc0, rfl⟩ := List.mem_map.mp hc
  rw [space_lower (h c0 hc0)]
  exact h c0 hc0

theorem applyRulesEn_empty (uid : Int) (ctxv : Option Nat) :
    applyRules (english_rules uid) [] ctxv uid = none := by
  have h1 : reSearch listPatEn ([] : List Char) = none := by decide
  have h2 : reSearch addPatEn ([] : List Char) = none := by decide
  have h3 : reSearch addImplicitPatEn ([] : List Char) = none := by decide
  have h4 : reSearch completeContextPatEn ([] : List Char) = none := by decide
  have h5 : reSearch deleteContextPatEn ([] : List Char) = none := by decide
  have h6 : reSearch completePatEn ([] : List Char) = none := by decide
  have h7 : reSearch deleteRequestPatEn ([] : List Char) = none := by decide
  have h8 : reSearch updatePatEn ([] : List Char) = none := by decide
  simp only [english_rules, applyRules, h1, h2, h3, h4, h5, h6, h7, h8]

theorem processCore_empty_msg (raw : List Char) (ctxv : Ctx) (uid : Int) :
    processCore false raw [] ctxv uid =
      ⟨enUnknownReply, [], false, "end_turn", "en"⟩ := by
  have hyes : reSearch yesPat [] = none := by decide
  have hno : reSearch noPat [] = none := by decide
  have hrr : ruleResponse false raw [] ctxv.last_id uid =
      ⟨enUnknownReply, [], false, "end_turn", "en"⟩ := by
    unfold ruleResponse
    have : applyRules (rulesFor false uid) (classifyTarget false raw [])
        ctxv.last_id uid = none := by
      simp only [rulesFor, Bool.false_eq_true, if_false, classifyTarget]
      exact applyRulesEn_empty uid ctxv.last_id
    rw [this]
    rfl
  unfold processCore
  split
  · dsimp only
    rw [hyes, hno]
    simp only [Option.isSome_none, Bool.false_eq_true, if_false]
    exact hrr
  · exact hrr

/-- Claim C8: a whitespace-only input (with any history) yields the
help reply and no tool call; and on every input, every code path of
process_message returns a nonempty reply string. -/
theorem claim_C8 :
    (∀ (input : String) (hist : List Msg) (uid : Int),
      (∀ c ∈ input.data, pyIsSpace c = true) →
      (process_message input hist uid).response_text = enUnknownReply ∧
      (process_message input hist uid).tool_calls = []) ∧
    (∀ (input : String) (hist : List Msg) (uid : Int),
      (process_message input hist uid).response_text ≠ "") := by
  constructor
  · intro input hist uid h
    unfold process_message
    rw [all_space_is_urdu_false h, mkMsg_space h, processCore_empty_msg]
    exact ⟨rfl, rfl⟩
  · intro input hist uid
    unfold process_message processCore
    split
    · dsimp only
      split
      · dsimp only
        split <;>
          (apply ne_empty_of_data
           repeat apply data_append_ne_left
           decide)
      · split
        · dsimp only
          split <;> decide
        · exact ruleResponse_text_ne _ _ _ _ _
    · exact ruleResponse_text_ne _ _ _ _ _

/-- Witness for C8 at a whitespace input over the confirmation history. -/
theorem claim_C8_witness :
    (process_message "   " histC1 1).response_text = enUnknownReply ∧
    (process_message "   " histC1 1).tool_calls = [] :=
  claim_C8.1 "   " histC1 1 (by decide)

/-- Claim C1: for every history whose most recent Agent confirmation
question asks about deleting task 7 (and any user id), the input yes
dispatches exactly the delete_todo call for task 7; the input no
dispatches nothing and replies with the cancellation sentence; and every
input matching neither the affirmative nor the negative pattern is
re-classified from scratch — the result is exactly the rule-table
classification, ignoring the stale pending state — which for the input
add task buy milk is a fresh create_todo call. -/
theorem claim_C1 (hist : List Msg) (uid : Int)
    (hconf : specNewestConfId hist = some 7) :
    (process_message "yes" hist uid).tool_calls =
      [⟨"delete_todo", ⟨uid, some 7, none, none⟩,
        "mock_delete_confirm_" ++ intRepr uid ++ "_" ++ natRepr 7⟩] ∧
    (process_message "no" hist uid).tool_calls = [] ∧
    (process_message "no" hist uid).response_text = enNoReply ∧
    (process_message "add task buy milk" hist uid).tool_calls =
      [⟨"create_todo", ⟨uid, none, some "Buy milk", none⟩,
        "mock_add_0_" ++ intRepr uid⟩] ∧
    (∀ (input : String),
      (reSearch yesPat (mkMsg input)).isSome = false →
      (reSearch noPat (mkMsg input)).isSome = false →
      process_message input hist uid =
        ruleResponse (is_urdu input) input.data (mkMsg input)
          (get_context_from_history hist).last_id uid) := by
  unfold specNewestConfId at hconf
  have hpair := scanHistory_pending hist.reverse ⟨none, none, none⟩ rfl rfl
  rw [hconf] at hpair
  have hpa : (get_context_from_history hist).pending_action =
      some "delete" := by
    unfold get_context_from_history
    exact congrArg Prod.fst hpair
  have hpid : (get_context_from_history hist).pending_id = some 7 := by
    unfold get_context_from_history
    exact congrArg Prod.snd hpair
  have hlive : pendingLive (get_context_from_history hist) = true := by
    unfold pendingLive
    rw [hpa, hpid]
    decide
  refine ⟨?_, ?_, ?_, ?_, ?_⟩
  · unfold process_message processCore
    rw [if_pos hlive]
    dsimp only
    rw [if_pos (show (reSearch yesPat (mkMsg "yes")).isSome = true
      by decide)]
    rw [hpid]
    rfl
  · unfold process_message processCore
    rw [if_pos hlive]
    dsimp only
    rw [if_neg (show ¬((reSearch yesPat (mkMsg "no")).isSome = true)
      by decide)]
    rw [if_pos (show (reSearch noPat (mkMsg "no")).isSome = true
      by decide)]
  · unfold process_message processCore
    rw [if_pos hlive]
    dsimp only
    rw [if_neg (show ¬((reSearch yesPat (mkMsg "no")).isSome = true)
      by decide)]
    rw [if_pos (show (reSearch noPat (mkMsg "no")).isSome = true
      by decide)]
    decide
  · have h0 : is_urdu "add task buy milk" = false := by decide
    have h1 : reSearch listPatEn (mkMsg "add task buy milk") = none := by
      decide
    have h2 : reSearch addPatEn (mkMsg "add task buy milk") =
        some ⟨mkMsg "add task buy milk", 0, 17, [(1, 9, 17)]⟩ := by decide
    unfold process_message processCore
    rw [if_pos hlive]
    dsimp only
    rw [if_neg (show
      ¬((reSearch yesPat (mkMsg "add task buy milk")).isSome = true)
      by decide)]
    rw [if_neg (show
      ¬((reSearch noPat (mkMsg "add task buy milk")).isSome = true)
      by decide)]
    unfold ruleResponse
    rw [h0]
    simp only [rulesFor, classifyTarget, Bool.false_eq_true, if_false]
    simp only [english_rules, applyRules, h1, h2]
    rfl
  · intro input hyes hno
    unfold process_message processCore
    split <;> simp only [hyes, hno, Bool.false_eq_true, if_false]

/-- Witness for C1 at the two-turn exemplar history of the spec; the
re-classification clause is exercised at the input add task buy milk,
which matches neither the affirmative nor the negative pattern. -/
theorem claim_C1_witness :
    (process_message "yes" histC1 1).tool_calls =
      [⟨"delete_todo", ⟨1, some 7, none, none⟩,
        "mock_delete_confirm_1_7"⟩] ∧
    (process_message "no" histC1 1).tool_calls = [] ∧
    (process_message "no" histC1 1).response_text = enNoReply ∧
    (process_message "add task buy milk" histC1 1).tool_calls =
      [⟨"create_todo", ⟨1, none, some "Buy milk", none⟩, "mock_add_0_1"⟩] ∧
    process_message "add task buy milk" histC1 1 =
      ruleResponse (is_urdu "add task buy milk") "add task buy milk".data
        (mkMsg "add task buy milk")
        (get_context_from_history histC1).last_id 1 := by
  have h := claim_C1 histC1 1 (by decide)
  exact ⟨h.1, h.2.1, h.2.2.1, h.2.2.2.1,
    h.2.2.2.2 "add task buy milk" (by decide) (by decide)⟩

/-- Counterexample to claim C3: in this history the newest Agent turn is
not a confirmation question, yet the resolver still reports the older
pending delete for task 5 — a later non-confirmation Agent turn does not
clear the pending state. -/
theorem claim_C3_counterexample :
    histC3.getLast?.map Msg.role = some "assistant" ∧
    confId (pyLowerL "Fetching your todo list...".data) = none ∧
    (get_context_from_history histC3).pending_action = some "delete" ∧
    (get_context_from_history histC3).pending_id = some 5 :=
  ⟨by decide, by decide, by decide, by decide⟩

/-- Claim C3 amended: the resolver yields at most one pending action,
namely the one posed by the most recent Agent turn matching the
delete-confirmation pattern, and none when no Agent turn matches;
intervening non-confirmation Agent turns are skipped rather than
clearing the pending state. -/
theorem claim_C3_amended (hist : List Msg) :
    ((get_context_from_history hist).pending_action,
      (get_context_from_history hist).pending_id) =
      (match specNewestConfId hist with
       | some n => (some "delete", some n)
       | none => (none, none)) := by
  unfold get_context_from_history specNewestConfId
  exact scanHistory_pending hist.reverse ⟨none, none, none⟩ rfl rfl

/-- Counterexample to claim C6: the create scenario extracts the title
Buy groceries tomorrow, not buy groceries, and the summarized reply for
the id-42 success does not contain the exact string buy groceries
(though it contains 42). -/
theorem claim_C6_counterexample :
    (process_message "Add a task to buy groceries tomorrow" [] 1).tool_calls
      = [⟨"create_todo", ⟨1, none, some "Buy groceries tomorrow", none⟩,
          "mock_add_0_1"⟩] ∧
    ("Buy groceries tomorrow" : String) ≠ "buy groceries" ∧
    strContains (process_tool_results [resultC6] 1).response_text
      "buy groceries" = false ∧
    strContains (process_tool_results [resultC6] 1).response_text
      "42" = true :=
  ⟨by decide, by decide, by decide, by decide⟩

/-- Claim C6 amended: the input classifies as a create intent with title
Buy groceries tomorrow, and when storage succeeds with id 42 for that
title the summarized reply contains Buy groceries and 42. -/
theorem claim_C6_amended :
    (process_message "Add a task to buy groceries tomorrow" [] 1).tool_calls
      = [⟨"create_todo", ⟨1, none, some "Buy groceries tomorrow", none⟩,
          "mock_add_0_1"⟩] ∧
    (process_tool_results [resultC6] 1).response_text =
      procEn "Buy groceries tomorrow" 42 ∧
    strContains (process_tool_results [resultC6] 1).response_text
      "Buy groceries" = true ∧
    strContains (process_tool_results [resultC6] 1).response_text
      "42" = true :=
  ⟨by decide, by decide, by decide, by decide⟩

/-- Counterexample to the general clause of claim C7: create-intent
extraction does not reject purely numeric titles in general — the
explicit-verb input add task 1 dispatches create_todo with the purely
numeric title 1. -/
theorem claim_C7_counterexample :
    (process_message "add task 1" [] 1).tool_calls =
      [⟨"create_todo", ⟨1, none, some "1", none⟩, "mock_add_0_1"⟩] ∧
    ("1" : String).data.all pyIsDigit = true :=
  ⟨by decide, by decide⟩

/-- Claim C7 amended: the bare input task 1 (no verb) yields the
unknown-intent help reply and no tool call — the implicit-add rule
refuses a digit right after task — but extraction under an explicit add
verb accepts numeric titles: add task 1 creates the title 1. -/
theorem claim_C7_amended :
    ((process_message "task 1" [] 1).response_text = enUnknownReply ∧
      (process_message "task 1" [] 1).tool_calls = []) ∧
    (process_message "add task 1" [] 1).tool_calls =
      [⟨"create_todo", ⟨1, none, some "1", none⟩, "mock_add_0_1"⟩] :=
  ⟨⟨by decide, by decide⟩, by decide⟩

/-- Counterexample to claim C4: an Urdu list turn produces an English
summarized reply when the tool results carry no Urdu top-level string
value — the summarizer language is driven by the tool-result content,
not by the language of the turn input. -/
theorem claim_C4_counterexample :
    is_urdu urduListInput = true ∧
    (process_message urduListInput [] 1).language = "ur" ∧
    (process_message urduListInput [] 1).tool_calls = [listToolCall 1] ∧
    is_urdu (process_tool_results [asciiListResult] 1).response_text
      = false :=
  ⟨by decide, by decide, by decide, by decide⟩

theorem urdu_rulesFor_true (uid : Int) : rulesFor true uid = urdu_rules uid :=
  rfl

theorem ruleResponse_text_ur (raw msg : List Char) (lid : Option Nat)
    (uid : Int) :
    is_urdu (ruleResponse true raw msg lid uid).response_text = true := by
  unfold ruleResponse
  cases happly : applyRules (rulesFor true uid) (classifyTarget true raw msg)
      lid uid with
  | none => decide
  | some res =>
    obtain ⟨i, t, cs⟩ := res
    dsimp only
    obtain ⟨r, hr, m, _, heq⟩ := applyRules_eq_some _ _ _ _ _ happly
    rw [Prod.mk.injEq, Prod.mk.injEq] at heq
    rw [heq.2.1]
    exact urdu_rules_TextUr uid r hr m lid

theorem mkMsg_noUrdu {input : String} (hU : is_urdu input = false) :
    CharsNoUrdu (mkMsg input) := by
  unfold mkMsg
  rw [hU]
  simp only [Bool.false_eq_true, if_false]
  intro c hc
  obtain ⟨c0, hc0, rfl⟩ := List.mem_map.mp (mem_pyStrip hc)
  exact pyLowerC_notUrdu ((is_urdu_false_iff input).mp hU c0 hc0)

theorem ruleResponse_text_noUrdu (raw msg : List Char) (lid : Option Nat)
    (uid : Int) (hmsg : CharsNoUrdu msg) :
    StrNoUrdu (ruleResponse false raw msg lid uid).response_text := by
  unfold ruleResponse
  cases happly : applyRules (rulesFor false uid) (classifyTarget false raw msg)
      lid uid with
  | none =>
    dsimp only
    repeat
      first
      | refine strNoUrdu_append ?_ ?_
      | decide
  | some res =>
    obtain ⟨i, t, cs⟩ := res
    dsimp only
    obtain ⟨r, hr, m, hs, heq⟩ := applyRules_eq_some _ _ _ _ _ happly
    rw [Prod.mk.injEq, Prod.mk.injEq] at heq
    rw [heq.2.1]
    have hstr : CharsNoUrdu m.str := by
      rw [reSearch_str hs]
      exact hmsg
    exact english_rules_TextNoUrdu uid r hr m lid hstr

theorem process_text_ur (input : String) (hist : List Msg) (uid : Int)
    (hU : is_urdu input = true) :
    is_urdu (process_message input hist uid).response_text = true := by
  unfold process_message processCore
  rw [hU]
  split
  · dsimp only
    split
    · dsimp only
      rw [if_pos rfl]
      unfold urYesReply
      repeat
        first
        | apply is_urdu_left
        | decide
    · split
      · dsimp only
        rw [if_pos rfl]
        decide
      · exact ruleResponse_text_ur _ _ _ _
  · exact ruleResponse_text_ur _ _ _ _

theorem process_text_en (input : String) (hist : List Msg) (uid : Int)
    (hU : is_urdu input = false) :
    is_urdu (process_message input hist uid).response_text = false := by
  rw [is_urdu_false_iff]
  unfold process_message processCore
  rw [hU]
  split
  · dsimp only
    split
    · dsimp only
      rw [if_neg Bool.false_ne_true]
      unfold enYesReply
      repeat
        first
        | refine strNoUrdu_append ?_ ?_
        | exact natRepr_noUrdu _
        | decide
    · split
      · dsimp only
        rw [if_neg Bool.false_ne_true]
        decide
      · exact ruleResponse_text_noUrdu _ _ _ _ (mkMsg_noUrdu hU)
  · exact ruleResponse_text_noUrdu _ _ _ _ (mkMsg_noUrdu hU)

theorem bool_any_false {α : Type} (p : α → Bool) (l : List α) :
    l.any p = false ↔ ∀ x ∈ l, p x = false := by
  constructor
  · intro h x hx
    by_contra hcon
    simp only [Bool.not_eq_false] at hcon
    rw [show l.any p = true from List.any_eq_true.mpr ⟨x, hx, hcon⟩] at h
    cases h
  · intro h
    by_contra hcon
    rw [Bool.not_eq_false, List.any_eq_true] at hcon
    obtain ⟨x, hx, hpx⟩ := hcon
    rw [h x hx] at hpx
    cases hpx

theorem joinSep_cons_ur {x : String} (hx : is_urdu x = true)
    (sep : String) (rest : List String) :
    is_urdu (joinSep sep (x :: rest)) = true := by
  cases rest with
  | nil => exact hx
  | cons y ys =>
    rw [joinSep]
    exact is_urdu_left (is_urdu_left hx sep) _

theorem joinSep_noUrdu (sep : String) (hsep : StrNoUrdu sep) :
    ∀ l : List String, (∀ s ∈ l, StrNoUrdu s) → StrNoUrdu (joinSep sep l)
  | [] => by intro _ c hc; simp [joinSep] at hc
  | [x] => by
    intro h
    simpa [joinSep] using h x (by simp)
  | x :: y :: rest => by
    intro h
    rw [joinSep]
    exact strNoUrdu_append (strNoUrdu_append (h x (by simp)) hsep)
      (joinSep_noUrdu sep hsep (y :: rest) (fun s hs => h s (by simp [hs])))

theorem resultLine_ur (c : ToolContent) (s : String)
    (h : resultLine true c = some s) : is_urdu s = true := by
  unfold resultLine at h
  split at h
  · rw [Option.some.injEq] at h
    subst h
    rw [if_pos rfl]
    unfold errUr
    exact is_urdu_left (by decide) _
  · revert h
    cases c.todos with
    | some todos =>
      intro h
      rw [Option.some.injEq] at h
      subst h
      split
      · rw [if_pos rfl]; decide
      · rw [if_pos rfl]
        exact joinSep_cons_ur (by decide) _ _
    | none =>
      cases c.todo_id with
      | some tid =>
        intro h
        rw [Option.some.injEq] at h
        subst h
        split
        · rw [if_pos rfl]
          unfold delUr
          repeat apply is_urdu_left
          decide
        · cases c.title with
          | some t =>
            rw [if_pos rfl]
            unfold procUr
            repeat apply is_urdu_left
            decide
          | none =>
            rw [if_pos rfl]
            unfold opUr
            repeat apply is_urdu_left
            decide
      | none => intro h; cases h

theorem title_mem_vals {c : ToolContent} {t : String}
    (h : c.title = some t) : t ∈ contentStringValues c := by
  unfold contentStringValues
  rw [h]
  cases c.error <;> simp

theorem error_mem_vals {c : ToolContent} {e : String}
    (h : c.error = some e) : e ∈ contentStringValues c := by
  unfold contentStringValues
  rw [h]
  simp

theorem resultLine_en (c : ToolContent) (s : String)
    (hvals : ∀ v ∈ contentStringValues c, is_urdu v = false)
    (htodos : ∀ td ∈ c.todos.getD [], is_urdu td.title = false)
    (h : resultLine false c = some s) : StrNoUrdu s := by
  have herr : StrNoUrdu (c.error.getD "Unknown error") := by
    cases he : c.error with
    | none => decide
    | some e =>
      rw [Option.getD_some]
      exact (is_urdu_false_iff e).mp (hvals e (error_mem_vals he))
  unfold resultLine at h
  split at h
  · rw [Option.some.injEq] at h
    subst h
    rw [if_neg Bool.false_ne_true]
    exact strNoUrdu_append (by decide) herr
  · revert h
    cases hto : c.todos with
    | some todos =>
      intro h
      rw [Option.some.injEq] at h
      subst h
      split
      · rw [if_neg Bool.false_ne_true]
        decide
      · rw [if_neg Bool.false_ne_true]
        apply joinSep_noUrdu _ (by decide)
        intro piece hpiece
        simp only [List.singleton_append, List.mem_cons, List.mem_map]
          at hpiece
        rcases hpiece with rfl | ⟨td, htd, rfl⟩
        · decide
        · unfold todoLine
          have htitle : StrNoUrdu td.title := by
            apply (is_urdu_false_iff td.title).mp
            apply htodos
            rw [hto, Option.getD_some]
            exact htd
          repeat
            first
            | refine strNoUrdu_append ?_ ?_
            | exact natRepr_noUrdu _
            | exact htitle
            | (split <;> decide)
            | decide
    | none =>
      cases c.todo_id with
      | some tid =>
        intro h
        rw [Option.some.injEq] at h
        subst h
        split
        · rw [if_neg Bool.false_ne_true]
          unfold delEn
          repeat
            first
            | refine strNoUrdu_append ?_ ?_
            | exact natRepr_noUrdu _
            | decide
        · cases hti : c.title with
          | some t =>
            rw [if_neg Bool.false_ne_true]
            unfold procEn
            have htitle : StrNoUrdu t :=
              (is_urdu_false_iff t).mp (hvals t (title_mem_vals hti))
            repeat
              first
              | refine strNoUrdu_append ?_ ?_
              | exact natRepr_noUrdu _
              | exact htitle
              | decide
          | none =>
            rw [if_neg Bool.false_ne_true]
            unfold opEn
            repeat
              first
              | refine strNoUrdu_append ?_ ?_
              | exact natRepr_noUrdu _
              | decide
      | none => intro h; cases h

theorem summarizer_ur (rs : List ToolResult) (uid : Int)
    (h : urduContextOf rs = true) :
    is_urdu (process_tool_results rs uid).response_text = true := by
  unfold process_tool_results
  rw [h]
  dsimp only
  cases hresp : rs.filterMap (fun r => resultLine true r.content) with
  | nil => decide
  | cons x xs =>
    have hx : x ∈ rs.filterMap (fun r => resultLine true r.content) := by
      rw [hresp]; simp
    obtain ⟨r, _, hline⟩ := List.mem_filterMap.mp hx
    simp only [List.isEmpty_cons, Bool.false_eq_true, if_false]
    exact joinSep_cons_ur (resultLine_ur r.content x hline) _ _

theorem summarizer_en (rs : List ToolResult) (uid : Int)
    (h : urduContextOf rs = false)
    (htodos : ∀ r ∈ rs, ∀ td ∈ r.content.todos.getD [],
      is_urdu td.title = false) :
    is_urdu (process_tool_results rs uid).response_text = false := by
  rw [is_urdu_false_iff]
  have hvals : ∀ r ∈ rs, ∀ v ∈ contentStringValues r.content,
      is_urdu v = false := by
    unfold urduContextOf at h
    rw [bool_any_false] at h
    intro r hr v hv
    exact (bool_any_false _ _).mp (h r hr) v hv
  unfold process_tool_results
  rw [h]
  dsimp only
  cases hresp : rs.filterMap (fun r => resultLine false r.content) with
  | nil =>
    simp only [List.isEmpty_nil, if_pos]
    repeat
      first
      | refine strNoUrdu_append ?_ ?_
      | decide
  | cons x xs =>
    simp only [List.isEmpty_cons, Bool.false_eq_true, if_false]
    apply joinSep_noUrdu _ (by decide)
    intro s hs
    rw [← hresp] at hs
    obtain ⟨r, hr, hline⟩ := List.mem_filterMap.mp hs
    exact resultLine_en r.content s (hvals r hr) (htodos r hr) hline

/-- Claim C4 amended: the direct replies of process_message mirror the
language of the turn input — an input with an Urdu character gets a reply
containing Urdu characters, a pure-ASCII input gets a reply without them
— but the summarized reply produced from tool results is driven by Urdu
detection over the top-level string values of the results content, not by
the language of the turn input. -/
theorem claim_C4_amended :
    (∀ (input : String) (hist : List Msg) (uid : Int),
      is_urdu input = true →
      is_urdu (process_message input hist uid).response_text = true) ∧
    (∀ (input : String) (hist : List Msg) (uid : Int),
      is_urdu input = false →
      is_urdu (process_message input hist uid).response_text = false) ∧
    (∀ (rs : List ToolResult) (uid : Int),
      urduContextOf rs = true →
      is_urdu (process_tool_results rs uid).response_text = true) ∧
    (∀ (rs : List ToolResult) (uid : Int),
      urduContextOf rs = false →
      (∀ r ∈ rs, ∀ td ∈ r.content.todos.getD [],
        is_urdu td.title = false) →
      is_urdu (process_tool_results rs uid).response_text = false) :=
  ⟨process_text_ur, process_text_en, summarizer_ur, summarizer_en⟩

/-- Witness for the amended C4 at concrete inputs and results. -/
theorem claim_C4_amended_witness :
    is_urdu (process_message "فہرست دکھائیں" [] 1).response_text = true ∧
    is_urdu (process_message "show my tasks" [] 1).response_text = false ∧
    is_urdu (process_tool_results
      [⟨⟨false, some "مسئلہ", none, none, none, none⟩⟩] 1).response_text
      = true ∧
    is_urdu (process_tool_results [asciiListResult] 1).response_text
      = false :=
  ⟨claim_C4_amended.1 _ [] 1 (by decide),
   claim_C4_amended.2.1 _ [] 1 (by decide),
   claim_C4_amended.2.2.1 _ 1 (by decide),
   claim_C4_amended.2.2.2 _ 1 (by decide) (by decide)⟩

end TodoSpec
